import Mathlib

/-! go-lwip: the UDP connection adapter of `udp_conn.go` and the buffer pool of
`buffer_pool.go`.

A shallow embedding of the per-flow UDP adapter: its three-valued state, the
bounded early-data queue, the deadline timer, the close path and the connect
task started by `newUDPConn`.  Effects on the outside world (calls of the
handler's `ReceiveTo`, calls of the stack engine's `udp_sendto`, the process
wide connection registry) are recorded in an explicit `World`.  The buffer pool
is embedded as the list of buffers it holds.
-/

namespace GoLwip

/-- Go `error` values: `none` is `nil`, `some msg` an error with that message. -/
abbrev GoError := Option String

/-- States of the adapter, `udpConnState` in `udp_conn.go`. -/
inductive udpConnState where
  | udpConnecting
  | udpConnected
  | udpClosed
  deriving DecidableEq

/-- The part of `net.UDPAddr` the adapter uses: the address `IP` in its textual
form (what `addr.IP.String()` yields) and the port. -/
structure UDPAddr where
  IP : String
  Port : Nat
  deriving DecidableEq

/-- Textual form of a possibly nil `*net.UDPAddr` (`(*UDPAddr).String` of the
Go library): a nil receiver prints as `<nil>`, otherwise host and port joined by
a colon (the brackets and zone of an IPv6 host are taken to be part of `IP`). -/
def UDPAddr.String : Option UDPAddr → String
  | none => "<nil>"
  | some a => a.IP ++ ":" ++ toString a.Port

/-- A buffered datagram, `udpPacket`. The address pointer may be nil. -/
structure udpPacket where
  data : List Nat
  addr : Option UDPAddr
  deriving DecidableEq

/-- The deadline timer (`*time.Timer` made by `time.AfterFunc`): `d` is the
duration it was last armed with; its callback is always `conn.Close()`. -/
structure Timer where
  d : Int
  deriving DecidableEq

/-- Capacity of the `pending` channel made in `newUDPConn`. -/
def pendingCap : Nat := 64

/-- The adapter, `udpConn`. The mutex is left out (every locked section is one
atomic update here); the `handler` field is passed to the operations
explicitly; the channel `pending` is the list of its buffered elements, oldest
first. -/
structure udpConn where
  pcb : Nat
  localAddr : Option UDPAddr
  localIP : Nat
  localPort : Nat
  state : udpConnState
  pending : List udpPacket
  deadline : Option Timer
  deriving DecidableEq

/-- Key of the connection registry, `udpConnId`. -/
structure udpConnId where
  src : String
  deriving DecidableEq

/-- Modelled from the spec: the Connection Registry `udpConns`, declared
outside the files at hand. A mapping from flow key to adapter (adapters are
named by a number), held as an association list; `Delete` removes the entry
under a key and `Load` looks a key up. -/
abbrev Registry := List (udpConnId × Nat)

/-- Modelled from the spec: `udpConns.Delete(key)`, removing whatever is stored
under `key`; a missing key is no error. -/
def Registry.Delete (r : Registry) (key : udpConnId) : Registry :=
  r.filter (fun e => decide (e.1 ≠ key))

/-- Modelled from the spec: `udpConns.Load(key)`. -/
def Registry.Load (r : Registry) (key : udpConnId) : Option Nat :=
  (r.find? (fun e => decide (e.1 = key))).map Prod.snd

/-- One call of the stack engine's `udp_sendto` as made by `WriteFrom`: the buffer
references `data` with the length cast to `u16_t`, the port is cast to `u16_t`. -/
structure SendTo where
  pcb : Nat
  data : List Nat
  len : Nat
  localIP : Nat
  localPort : Nat
  remoteIP : Nat
  remotePort : Nat
  deriving DecidableEq

/-- The handler, `UDPConnHandler`. A result may depend on the datagrams the
handler was given before (first argument of `ReceiveTo`), so handlers with
internal state are covered; a handler is not assumed to call back into the
adapter while it runs. -/
structure UDPConnHandler where
  Connect : Option UDPAddr → GoError
  ReceiveTo : List udpPacket → udpPacket → GoError

/-- The adapter together with everything its operations act on: the registry,
the datagrams the handler's `ReceiveTo` has been invoked with (in call order),
the `udp_sendto` calls made, and the number of timers created so far. -/
structure World where
  conn : udpConn
  udpConns : Registry
  received : List udpPacket
  sent : List SendTo
  timers : Nat
  deriving DecidableEq

/-- The adapter built by `newUDPConn`: state `udpConnecting`, an empty queue,
no deadline. (The goroutine it starts is `connectGoroutine`.) -/
def newUDPConn (pcb localIP localPort : Nat) (localAddr : Option UDPAddr) : udpConn :=
  { pcb := pcb, localAddr := localAddr, localIP := localIP, localPort := localPort,
    state := udpConnState.udpConnecting, pending := [], deadline := none }

/-- Accessor `LocalAddr`. -/
def LocalAddr (conn : udpConn) : Option UDPAddr := conn.localAddr

/-- The method `checkState`. -/
def checkState (conn : udpConn) : GoError :=
  match conn.state with
  | udpConnState.udpClosed => some "connection closed"
  | udpConnState.udpConnected => none
  | udpConnState.udpConnecting => some "not connected"

/-- The method `enqueueEarlyPacket`: while connecting, a copy of the datagram is
sent on `pending` unless the channel is full. -/
def enqueueEarlyPacket (conn : udpConn) (data : List Nat) (addr : Option UDPAddr) :
    udpConn × Bool :=
  if conn.state = udpConnState.udpConnecting then
    if conn.pending.length < pendingCap then
      ({ conn with pending := conn.pending ++ [{ data := data, addr := addr }] }, true)
    else (conn, false)
  else (conn, false)

/-- The method `ReceiveTo`. -/
def ReceiveTo (h : UDPConnHandler) (w : World) (data : List Nat) (addr : Option UDPAddr) :
    World × GoError :=
  match enqueueEarlyPacket w.conn data addr with
  | (c, true) => ({ w with conn := c }, none)
  | (c, false) =>
    match checkState c with
    | some err => ({ w with conn := c }, some err)
    | none =>
      let w1 := { w with conn := c, received := w.received ++ [{ data := data, addr := addr }] }
      match h.ReceiveTo w.received { data := data, addr := addr } with
      | some err => (w1, some ("write proxy failed: " ++ err))
      | none => (w1, none)

/-- The method `WriteFrom`. `ipAddrATON` (declared outside the files at hand)
converts the textual remote address or fails. The outcome `none` stands for the
nil-pointer panic of `addr.IP` on a nil `addr`. -/
def WriteFrom (ipAddrATON : String → Except String Nat) (w : World) (data : List Nat)
    (addr : Option UDPAddr) : Option (World × Nat × GoError) :=
  if data.length = 0 then some (w, 0, none)
  else
    match checkState w.conn with
    | some err => some (w, 0, some err)
    | none =>
      match addr with
      | none => none
      | some a =>
        match ipAddrATON a.IP with
        | Except.error err => some (w, 0, some err)
        | Except.ok cremoteIP =>
          let call : SendTo :=
            { pcb := w.conn.pcb, data := data, len := data.length % 65536,
              localIP := w.conn.localIP, localPort := w.conn.localPort,
              remoteIP := cremoteIP, remotePort := a.Port % 65536 }
          some ({ w with sent := w.sent ++ [call] }, data.length, none)

/-- The method `Close`. -/
def Close (w : World) : World × GoError :=
  let connId : udpConnId := { src := UDPAddr.String (LocalAddr w.conn) }
  ({ w with conn := { w.conn with state := udpConnState.udpClosed },
            udpConns := w.udpConns.Delete connId }, none)

/-- The method `SetDeadline`, with `now` the clock read by `time.Until`. -/
def SetDeadline (w : World) (now t : Int) : World × GoError :=
  let d := t - now
  match w.conn.deadline with
  | some _ => ({ w with conn := { w.conn with deadline := some { d := d } } }, none)
  | none =>
    ({ w with conn := { w.conn with deadline := some { d := d } }, timers := w.timers + 1 }, none)

/-- The method `SetReadDeadline`. -/
def SetReadDeadline (w : World) (now t : Int) : World × GoError := SetDeadline w now t

/-- The method `SetWriteDeadline`. -/
def SetWriteDeadline (w : World) (now t : Int) : World × GoError := SetDeadline w now t

/-- The loop `DrainPending` of the connect task, by recursion on the content of
the queue: each turn receives the oldest datagram and hands it to the handler;
the loop ends at the first error or when the queue is empty. -/
def drainFrom (h : UDPConnHandler) (w : World) : List udpPacket → World
  | [] => w
  | pkt :: rest =>
    let w1 := { w with conn := { w.conn with pending := rest },
                       received := w.received ++ [pkt] }
    match h.ReceiveTo w.received pkt with
    | some _ => w1
    | none => drainFrom h w1 rest

/-- The loop `DrainPending` run on the adapter's queue. -/
def drainPending (h : UDPConnHandler) (w : World) : World :=
  drainFrom h w w.conn.pending

/-- The write `conn.state = udpConnected` of the connect task. -/
def setConnected (w : World) : World :=
  { w with conn := { w.conn with state := udpConnState.udpConnected } }

/-- The body of the goroutine started by `newUDPConn`, run without
interference from other callers. -/
def connectGoroutine (h : UDPConnHandler) (remoteAddr : Option UDPAddr) (w : World) : World :=
  match h.Connect remoteAddr with
  | some _ => (Close w).1
  | none => drainPending h (setConnected w)

/-! ## The adapter under interleaving

The connect task runs concurrently with the callers of the adapter. Its steps
are: `Connect` returns (with or without an error), and one turn of the drain
loop at a time. Calls of the adapter's methods are single steps. -/

/-- Where the connect task stands. -/
inductive ConnectPC where
  | running
  | draining
  | finished
  deriving DecidableEq

/-- World plus the position of the connect task. -/
structure Sys where
  w : World
  task : ConnectPC
  deriving DecidableEq

/-- The events of an adapter. -/
inductive Event where
  | connectOk
  | connectErr
  | drain
  | receiveTo (data : List Nat) (addr : Option UDPAddr)
  | writeFrom (data : List Nat) (addr : Option UDPAddr)
  | close
  | setDeadline (now t : Int)
  | deadlineExpired
  deriving DecidableEq

/-- One turn of the loop `DrainPending`; the flag tells whether the loop goes on. -/
def drainOnce (h : UDPConnHandler) (w : World) : World × Bool :=
  match w.conn.pending with
  | [] => (w, false)
  | pkt :: rest =>
    let w1 := { w with conn := { w.conn with pending := rest },
                       received := w.received ++ [pkt] }
    match h.ReceiveTo w.received pkt with
    | some _ => (w1, false)
    | none => (w1, true)

/-- One step of the system; `none` when the event cannot happen in this state
(or when the call panics). -/
def step (h : UDPConnHandler) (ipAddrATON : String → Except String Nat) (s : Sys) :
    Event → Option Sys
  | Event.connectOk =>
    if s.task = ConnectPC.running then
      some { w := setConnected s.w, task := ConnectPC.draining }
    else none
  | Event.connectErr =>
    if s.task = ConnectPC.running then
      some { w := (Close s.w).1, task := ConnectPC.finished }
    else none
  | Event.drain =>
    if s.task = ConnectPC.draining then
      match drainOnce h s.w with
      | (w1, true) => some { w := w1, task := ConnectPC.draining }
      | (w1, false) => some { w := w1, task := ConnectPC.finished }
    else none
  | Event.receiveTo data addr => some { s with w := (ReceiveTo h s.w data addr).1 }
  | Event.writeFrom data addr =>
    match WriteFrom ipAddrATON s.w data addr with
    | some r => some { s with w := r.1 }
    | none => none
  | Event.close => some { s with w := (Close s.w).1 }
  | Event.setDeadline now t => some { s with w := (SetDeadline s.w now t).1 }
  | Event.deadlineExpired =>
    match s.w.conn.deadline with
    | some _ => some { s with w := (Close s.w).1 }
    | none => none

/-- Run a sequence of events. -/
def run (h : UDPConnHandler) (ipAddrATON : String → Except String Nat) :
    Sys → List Event → Option Sys
  | s, [] => some s
  | s, e :: es =>
    match step h ipAddrATON s e with
    | some s1 => run h ipAddrATON s1 es
    | none => none

/-- The system right after `newUDPConn`: a fresh adapter, nothing delivered or
sent, the connect task still inside `Connect`. -/
def initSys (pcb localIP localPort : Nat) (localAddr : Option UDPAddr) (reg : Registry) : Sys :=
  { w := { conn := newUDPConn pcb localIP localPort localAddr, udpConns := reg,
           received := [], sent := [], timers := 0 },
    task := ConnectPC.running }

/-- The datagrams passed to `ReceiveTo` in a sequence of events. -/
def receiveArgs : List Event → List udpPacket
  | [] => []
  | Event.receiveTo data addr :: es => { data := data, addr := addr } :: receiveArgs es
  | _ :: es => receiveArgs es

/-- Feed a list of datagrams to `ReceiveTo`, one call after the other. -/
def receiveAll (h : UDPConnHandler) (w : World) : List udpPacket → World
  | [] => w
  | p :: ps => receiveAll h (ReceiveTo h w p.data p.addr).1 ps

/-! ## Early datagrams accepted by `ReceiveTo`, deadline calls -/

/-- The datagram of an event, when the event is a `ReceiveTo` call made while
the adapter is Connecting and the call returns nil. -/
def acceptedEarly (h : UDPConnHandler) (s : Sys) : Event → List udpPacket
  | Event.receiveTo data addr =>
    if s.w.conn.state = udpConnState.udpConnecting ∧ (ReceiveTo h s.w data addr).2 = none then
      [{ data := data, addr := addr }]
    else []
  | _ => []

/-- The datagrams for which `ReceiveTo` returned nil while the adapter was
Connecting, along a sequence of events, in call order. -/
def earlyAccepted (h : UDPConnHandler) (ipAddrATON : String → Except String Nat) :
    Sys → List Event → List udpPacket
  | _, [] => []
  | s, e :: es =>
    acceptedEarly h s e ++
      (match step h ipAddrATON s e with
       | some s1 => earlyAccepted h ipAddrATON s1 es
       | none => [])

/-- The three deadline methods of the adapter. -/
inductive DeadlineMethod where
  | SetDeadline
  | SetReadDeadline
  | SetWriteDeadline
  deriving DecidableEq

/-- A call of one of the deadline methods, with the clock `now` at the call and
the deadline `t` passed. -/
structure DeadlineCall where
  method : DeadlineMethod
  now : Int
  t : Int
  deriving DecidableEq

/-- Perform one deadline call. -/
def callDeadline (w : World) (c : DeadlineCall) : World × GoError :=
  match c.method with
  | DeadlineMethod.SetDeadline => SetDeadline w c.now c.t
  | DeadlineMethod.SetReadDeadline => SetReadDeadline w c.now c.t
  | DeadlineMethod.SetWriteDeadline => SetWriteDeadline w c.now c.t

/-- Perform a sequence of deadline calls; the results of the calls are
collected in call order. -/
def callDeadlines : World → List DeadlineCall → World × List GoError
  | w, [] => (w, [])
  | w, c :: cs =>
    ((callDeadlines (callDeadline w c).1 cs).1,
      (callDeadline w c).2 :: (callDeadlines (callDeadline w c).1 cs).2)

/-! ## The buffer pool (`buffer_pool.go`) -/

/-- The constant `bufSize`. -/
def bufSize : Nat := 2 * 1024

/-- Modelled from the spec: the concurrent-safe recycling pool (`sync.Pool` of
the Go library) behind `localPool`: the buffers it holds and its `New`
function. -/
structure SyncPool where
  items : List (List Nat)
  New : Unit → List Nat

/-- Modelled from the spec: `(*sync.Pool).Get`. A pool that holds buffers hands
one of them out, whichever `pick` selects, and no longer holds it; a pool that
holds none returns what `New` makes. -/
def SyncPool.Get (p : SyncPool) (pick : Nat) : List Nat × SyncPool :=
  match p.items[pick % p.items.length]? with
  | some b => (b, { p with items := p.items.eraseIdx (pick % p.items.length) })
  | none => (p.New (), p)

/-- Modelled from the spec: `(*sync.Pool).Put`. -/
def SyncPool.Put (p : SyncPool) (b : List Nat) : SyncPool :=
  { p with items := b :: p.items }

/-- The type `localPool`. -/
structure localPool where
  pool : SyncPool

/-- The method `localPool.Get`; `make([]byte, size)` is a buffer of `size`
zero bytes. `pick` is the choice made by the pool. -/
def localPool.Get (p : localPool) (pick : Nat) (size : Int) : List Nat × localPool :=
  if size ≤ (bufSize : Int) then
    ((p.pool.Get pick).1, { pool := (p.pool.Get pick).2 })
  else
    (List.replicate size.toNat 0, p)

/-- The method `localPool.Put`. -/
def localPool.Put (p : localPool) (b : List Nat) : localPool × GoError :=
  if bufSize ≤ b.length then ({ pool := p.pool.Put b }, none)
  else (p, none)

/-- The pool installed by `InitLocalPool`. -/
def InitLocalPool : localPool :=
  { pool := { items := [], New := fun _ => List.replicate bufSize 0 } }

/-- A call on the pool. -/
inductive PoolOp where
  | get (pick : Nat) (size : Int)
  | put (b : List Nat)

/-- Perform a sequence of calls on the pool. -/
def runPool : localPool → List PoolOp → localPool
  | p, [] => p
  | p, PoolOp.get pick size :: ops => runPool (p.Get pick size).2 ops
  | p, PoolOp.put b :: ops => runPool (p.Put b).1 ops

/-- The buffers released by `Put` in a sequence of calls. -/
def putArgs : List PoolOp → List (List Nat)
  | [] => []
  | PoolOp.put b :: ops => b :: putArgs ops
  | PoolOp.get _ _ :: ops => putArgs ops

/-- What the pool of `InitLocalPool` keeps true: it holds only buffers of at
least `bufSize` bytes and its `New` makes buffers of `bufSize` zero bytes. -/
def PoolInv (p : localPool) : Prop :=
  (∀ b ∈ p.pool.items, bufSize ≤ b.length) ∧ p.pool.New = fun _ => List.replicate bufSize 0

/-! ## Sample data used to instantiate the theorems -/

/-- A handler that accepts the connection and every datagram. -/
def acceptAll : UDPConnHandler :=
  { Connect := fun _ => none, ReceiveTo := fun _ _ => none }

/-- A handler that accepts the connection and rejects every datagram whose
payload is empty. -/
def rejectEmpty : UDPConnHandler :=
  { Connect := fun _ => none,
    ReceiveTo := fun _ p => if p.data = [] then some "empty" else none }

/-- An address conversion that always succeeds. -/
def atonOk : String → Except String Nat := fun _ => Except.ok 7

/-- A local endpoint. -/
def sampleLocal : UDPAddr := { IP := "10.0.0.2", Port := 5353 }

/-- A remote endpoint. -/
def sampleRemote : UDPAddr := { IP := "8.8.8.8", Port := 53 }

/-- A datagram with a one-byte payload. -/
def samplePkt (n : Nat) : udpPacket := { data := [n], addr := some sampleRemote }

/-- A fresh world: the adapter as `newUDPConn` leaves it, registered under its
local endpoint as adapter number 1. -/
def sampleWorld : World :=
  { conn := newUDPConn 1 2 5353 (some sampleLocal),
    udpConns := [({ src := "10.0.0.2:5353" }, 1)],
    received := [], sent := [], timers := 0 }

/-- A connecting world whose queue is full. -/
def fullWorld : World :=
  { sampleWorld with
    conn := { sampleWorld.conn with pending := List.replicate 64 (samplePkt 0) } }

/-- A closed adapter, with a newer adapter (number 2) since registered under
the same local endpoint. -/
def reusedKeyWorld : World :=
  { sampleWorld with
    conn := { sampleWorld.conn with state := udpConnState.udpClosed },
    udpConns := [({ src := "10.0.0.2:5353" }, 2)] }

/-- A system in which one datagram has been buffered while `Connect` runs. -/
def bufferedSys : Sys :=
  { w := { conn := { newUDPConn 1 2 5353 (some sampleLocal) with pending := [samplePkt 1] },
           udpConns := [], received := [], sent := [], timers := 0 },
    task := ConnectPC.running }

/-- The system `bufferedSys` after the connect task connected, a second
datagram arrived and one turn of the drain ran. -/
def overtakenSys : Sys :=
  { w := { conn := { newUDPConn 1 2 5353 (some sampleLocal) with
              state := udpConnState.udpConnected, pending := [] },
           udpConns := [], received := [samplePkt 2, samplePkt 1], sent := [], timers := 0 },
    task := ConnectPC.draining }

/-- A connecting world with three buffered datagrams, the second of them with
an empty payload. -/
def threeBuffered : World :=
  { sampleWorld with
    conn := { sampleWorld.conn with
      pending := [samplePkt 1, { data := [], addr := none }, samplePkt 3] } }

/-- A handler whose `Connect` fails. -/
def refuseConnect : UDPConnHandler :=
  { Connect := fun _ => some "refused", ReceiveTo := fun _ _ => none }

/-- The system `bufferedSys` after the connect task failed and closed the
adapter. -/
def failedSys : Sys :=
  { w := { conn := { newUDPConn 1 2 5353 (some sampleLocal) with
              state := udpConnState.udpClosed, pending := [samplePkt 1] },
           udpConns := [], received := [], sent := [], timers := 0 },
    task := ConnectPC.finished }

/-- A connected world. -/
def connectedWorld : World :=
  { sampleWorld with conn := { sampleWorld.conn with state := udpConnState.udpConnected } }

/-- An address conversion that always fails. -/
def atonFail : String → Except String Nat := fun _ => Except.error "bad address"

/-- A released buffer of 4096 bytes. -/
def bigBuf : List Nat := List.replicate 4096 1

/-- The system `overtakenSys` after the drain found the queue empty and the
connect task finished. -/
def drainedSys : Sys := { overtakenSys with task := ConnectPC.finished }

/-! ## Basic facts about the operations -/


theorem ReceiveTo_connecting_room (h : UDPConnHandler) (w : World) (data : List Nat)
    (addr : Option UDPAddr) (hs : w.conn.state = udpConnState.udpConnecting)
    (hroom : w.conn.pending.length < pendingCap) :
    ReceiveTo h w data addr =
      ({ w with conn := { w.conn with
            pending := w.conn.pending ++ [{ data := data, addr := addr }] } }, none) := by
  simp [ReceiveTo, enqueueEarlyPacket, hs, hroom]

theorem ReceiveTo_connecting_full (h : UDPConnHandler) (w : World) (data : List Nat)
    (addr : Option UDPAddr) (hs : w.conn.state = udpConnState.udpConnecting)
    (hfull : pendingCap ≤ w.conn.pending.length) :
    ReceiveTo h w data addr = (w, some "not connected") := by
  have hnot : ¬ w.conn.pending.length < pendingCap := by omega
  simp [ReceiveTo, enqueueEarlyPacket, checkState, hs, hnot]

theorem ReceiveTo_closed (h : UDPConnHandler) (w : World) (data : List Nat)
    (addr : Option UDPAddr) (hs : w.conn.state = udpConnState.udpClosed) :
    ReceiveTo h w data addr = (w, some "connection closed") := by
  simp [ReceiveTo, enqueueEarlyPacket, checkState, hs]

theorem ReceiveTo_connected (h : UDPConnHandler) (w : World) (data : List Nat)
    (addr : Option UDPAddr) (hs : w.conn.state = udpConnState.udpConnected) :
    ReceiveTo h w data addr =
      ({ w with received := w.received ++ [{ data := data, addr := addr }] },
        (h.ReceiveTo w.received { data := data, addr := addr }).map
          (fun err => "write proxy failed: " ++ err)) := by
  cases hr : h.ReceiveTo w.received { data := data, addr := addr } <;>
    simp [ReceiveTo, enqueueEarlyPacket, checkState, hs, hr]


theorem receiveAll_connecting (h : UDPConnHandler) (pkts : List udpPacket) :
    ∀ w : World, w.conn.state = udpConnState.udpConnecting →
      receiveAll h w pkts =
        { w with conn := { w.conn with
            pending := w.conn.pending ++ pkts.take (pendingCap - w.conn.pending.length) } } := by
  induction pkts with
  | nil => intro w _; simp [receiveAll]
  | cons p ps ih =>
    intro w hs
    by_cases hroom : w.conn.pending.length < pendingCap
    · rw [receiveAll, ReceiveTo_connecting_room h w _ _ hs hroom]
      dsimp only
      rw [ih _ (by simpa using hs)]
      have hk : pendingCap - w.conn.pending.length
          = (pendingCap - (w.conn.pending.length + 1)) + 1 := by omega
      simp [hk, List.take_succ_cons]
    · have hfull : pendingCap ≤ w.conn.pending.length := by omega
      rw [receiveAll, ReceiveTo_connecting_full h w _ _ hs hfull]
      dsimp only
      rw [ih _ hs]
      have hk : pendingCap - w.conn.pending.length = 0 := by omega
      simp [hk]

theorem drainFrom_accepting (h : UDPConnHandler)
    (hacc : ∀ log p, h.ReceiveTo log p = none) (q : List udpPacket) :
    ∀ w : World, drainFrom h w q =
      { w with conn := { w.conn with pending := if q = [] then w.conn.pending else [] },
               received := w.received ++ q } := by
  induction q with
  | nil => intro w; simp [drainFrom]
  | cons p ps ih =>
    intro w
    rw [drainFrom]
    simp only [hacc]
    rw [ih]
    by_cases hps : ps = [] <;> simp [hps]


/-! ## Early-data buffering -/

/-- C1: N datagrams are passed to `ReceiveTo` of a fresh adapter (state
Connecting, queue capacity 64) and the handler accepts the connection and every
datagram. The calls themselves leave the adapter Connecting and invoke the
handler on nothing; when the connect task has run, the handler's `ReceiveTo` has
been invoked with exactly the first min(N, 64) of the datagrams, in arrival
order, and the queue is empty. -/
theorem early_batch_delivered_in_order (h : UDPConnHandler) (pcb localIP localPort : Nat)
    (localAddr remoteAddr : Option UDPAddr) (reg : Registry) (pkts : List udpPacket)
    (hconn : h.Connect remoteAddr = none)
    (hacc : ∀ log p, h.ReceiveTo log p = none) :
    (receiveAll h (initSys pcb localIP localPort localAddr reg).w pkts).conn.state
        = udpConnState.udpConnecting ∧
    (receiveAll h (initSys pcb localIP localPort localAddr reg).w pkts).received = [] ∧
    (connectGoroutine h remoteAddr
        (receiveAll h (initSys pcb localIP localPort localAddr reg).w pkts)).received
        = pkts.take (min pkts.length pendingCap) ∧
    (connectGoroutine h remoteAddr
        (receiveAll h (initSys pcb localIP localPort localAddr reg).w pkts)).conn.pending
        = [] ∧
    (connectGoroutine h remoteAddr
        (receiveAll h (initSys pcb localIP localPort localAddr reg).w pkts)).conn.state
        = udpConnState.udpConnected := by
  have hinit : (initSys pcb localIP localPort localAddr reg).w.conn.state
      = udpConnState.udpConnecting := rfl
  have htake : pkts.take (min pkts.length pendingCap) = pkts.take pendingCap := by
    rcases Nat.le_total pkts.length pendingCap with hle | hle
    · rw [Nat.min_eq_left hle, List.take_of_length_le hle, List.take_length]
    · rw [Nat.min_eq_right hle]
  rw [receiveAll_connecting h pkts _ hinit, htake]
  simp only [connectGoroutine, hconn, drainPending, setConnected]
  rw [drainFrom_accepting h hacc]
  refine ⟨rfl, rfl, ?_, ?_, rfl⟩
  · simp [initSys, newUDPConn]
  · by_cases hq : pkts.take pendingCap = [] <;> simp [initSys, newUDPConn, hq]

/-- The statement of C1 at a sample handler and two datagrams. -/
theorem early_batch_delivered_in_order_witness :
    acceptAll.Connect none = none ∧
    (∀ log p, acceptAll.ReceiveTo log p = none) ∧
    (connectGoroutine acceptAll none
        (receiveAll acceptAll (initSys 1 2 5353 (some sampleLocal) []).w
          [samplePkt 1, samplePkt 2])).received
        = [samplePkt 1, samplePkt 2] :=
  ⟨rfl, fun _ _ => rfl,
    (early_batch_delivered_in_order acceptAll 1 2 5353 (some sampleLocal) none []
      [samplePkt 1, samplePkt 2] rfl (fun _ _ => rfl)).2.2.1⟩

/-- C2 as stated fails: with the adapter Connecting and its queue full,
`ReceiveTo` does not return nil. -/
theorem full_queue_returns_error :
    fullWorld.conn.state = udpConnState.udpConnecting ∧
    fullWorld.conn.pending.length = pendingCap ∧
    (ReceiveTo acceptAll fullWorld [1] (some sampleRemote)).2 ≠ none := by
  decide

/-- C2 (amended): with the adapter Connecting and its queue full, `ReceiveTo`
drops the datagram (the queue, the handler's log and everything else stay as
they were) and returns the error "not connected". -/
theorem full_queue_drops_with_not_connected (h : UDPConnHandler) (w : World)
    (data : List Nat) (addr : Option UDPAddr)
    (hs : w.conn.state = udpConnState.udpConnecting)
    (hfull : pendingCap ≤ w.conn.pending.length) :
    ReceiveTo h w data addr = (w, some "not connected") :=
  ReceiveTo_connecting_full h w data addr hs hfull

/-- The amended C2 at a full queue. -/
theorem full_queue_drops_with_not_connected_witness :
    ReceiveTo acceptAll fullWorld [1] (some sampleRemote) = (fullWorld, some "not connected") :=
  full_queue_drops_with_not_connected acceptAll fullWorld [1] (some sampleRemote)
    (by decide) (by decide)

/-- C3: `ReceiveTo` fails without calling the handler in exactly two
situations: Connecting with a full queue (error "not connected") and Closed
(error "connection closed"). Connecting with room in the queue it buffers the
datagram and returns nil; Connected it forwards the datagram to the handler. -/
theorem ReceiveTo_failure_cases (h : UDPConnHandler) (w : World) (data : List Nat)
    (addr : Option UDPAddr) :
    (w.conn.state = udpConnState.udpConnecting → pendingCap ≤ w.conn.pending.length →
      ReceiveTo h w data addr = (w, some "not connected")) ∧
    (w.conn.state = udpConnState.udpClosed →
      ReceiveTo h w data addr = (w, some "connection closed")) ∧
    (w.conn.state = udpConnState.udpConnecting → w.conn.pending.length < pendingCap →
      ReceiveTo h w data addr =
        ({ w with conn := { w.conn with
              pending := w.conn.pending ++ [{ data := data, addr := addr }] } }, none)) ∧
    (w.conn.state = udpConnState.udpConnected →
      ReceiveTo h w data addr =
        ({ w with received := w.received ++ [{ data := data, addr := addr }] },
          (h.ReceiveTo w.received { data := data, addr := addr }).map
            (fun err => "write proxy failed: " ++ err))) ∧
    (((ReceiveTo h w data addr).2 ≠ none ∧ (ReceiveTo h w data addr).1.received = w.received) ↔
      ((w.conn.state = udpConnState.udpConnecting ∧ pendingCap ≤ w.conn.pending.length) ∨
        w.conn.state = udpConnState.udpClosed)) := by
  refine ⟨ReceiveTo_connecting_full h w data addr, ReceiveTo_closed h w data addr,
    ReceiveTo_connecting_room h w data addr, ReceiveTo_connected h w data addr, ?_⟩
  cases hs : w.conn.state with
  | udpConnecting =>
    by_cases hroom : w.conn.pending.length < pendingCap
    · rw [ReceiveTo_connecting_room h w data addr hs hroom]
      simp; omega
    · have hfull : pendingCap ≤ w.conn.pending.length := by omega
      rw [ReceiveTo_connecting_full h w data addr hs hfull]
      simp [hfull]
  | udpConnected =>
    rw [ReceiveTo_connected h w data addr hs]
    simp
  | udpClosed =>
    rw [ReceiveTo_closed h w data addr hs]
    simp

/-- C3 at a full queue: the call fails with "not connected". -/
theorem ReceiveTo_failure_cases_witness :
    ReceiveTo acceptAll fullWorld [1] none = (fullWorld, some "not connected") :=
  (ReceiveTo_failure_cases acceptAll fullWorld [1] none).1 (by decide) (by decide)


/-! ## The registry and the close path -/

theorem Registry.Load_Delete_self (r : Registry) (key : udpConnId) :
    (r.Delete key).Load key = none := by
  simp only [Registry.Load, Registry.Delete, Option.map_eq_none', List.find?_eq_none]
  intro e he
  have := (List.mem_filter.mp he).2
  simpa using this

theorem Registry.Load_Delete_other (r : Registry) (key k : udpConnId) (hk : k ≠ key) :
    (r.Delete key).Load k = r.Load k := by
  induction r with
  | nil => rfl
  | cons e es ih =>
    unfold Registry.Load Registry.Delete at ih ⊢
    by_cases he : e.1 = key
    · have hne : ¬ e.1 = k := fun h => hk (h.symm.trans he)
      rw [List.filter_cons_of_neg (by simpa using he),
        List.find?_cons_of_neg _ (by simpa using hne)]
      exact ih
    · rw [List.filter_cons_of_pos (by simpa using he)]
      by_cases hek : e.1 = k
      · rw [List.find?_cons_of_pos _ (by simpa using hek),
          List.find?_cons_of_pos _ (by simpa using hek)]
      · rw [List.find?_cons_of_neg _ (by simpa using hek),
          List.find?_cons_of_neg _ (by simpa using hek)]
        exact ih

theorem Registry.Delete_of_Load_none (r : Registry) (key : udpConnId)
    (hnone : r.Load key = none) : r.Delete key = r := by
  simp only [Registry.Load, Option.map_eq_none', List.find?_eq_none] at hnone
  simp only [Registry.Delete, List.filter_eq_self]
  intro e he
  simpa using hnone e he

theorem Registry.mem_Delete (r : Registry) (key : udpConnId) (e : udpConnId × Nat) :
    e ∈ r.Delete key ↔ e ∈ r ∧ e.1 ≠ key := by
  simp [Registry.Delete, List.mem_filter]

theorem Close_fst (w : World) :
    (Close w).1 =
      { w with conn := { w.conn with state := udpConnState.udpClosed },
               udpConns := w.udpConns.Delete { src := UDPAddr.String (LocalAddr w.conn) } } :=
  rfl

theorem WriteFrom_closed (ipAddrATON : String → Except String Nat) (w : World)
    (data : List Nat) (addr : Option UDPAddr) (hs : w.conn.state = udpConnState.udpClosed) :
    WriteFrom ipAddrATON w data addr =
      some (w, 0, if data = [] then none else some "connection closed") := by
  by_cases hd : data = []
  · simp [WriteFrom, hd]
  · have hlen : ¬ data.length = 0 := by simpa using hd
    simp [WriteFrom, hlen, hd, checkState, hs]

/-- Every event other than the connect task's success keeps a closed adapter
closed. -/
theorem step_keeps_closed (h : UDPConnHandler) (ipAddrATON : String → Except String Nat)
    (s s1 : Sys) (e : Event) (hne : e ≠ Event.connectOk)
    (hs : s.w.conn.state = udpConnState.udpClosed)
    (hstep : step h ipAddrATON s e = some s1) :
    s1.w.conn.state = udpConnState.udpClosed := by
  cases e with
  | connectOk => exact absurd rfl hne
  | connectErr =>
    simp only [step] at hstep
    split at hstep
    · cases hstep; rfl
    · cases hstep
  | drain =>
    simp only [step, drainOnce] at hstep
    split at hstep
    · cases hp : s.w.conn.pending with
      | nil => simp [hp] at hstep; cases hstep; exact hs
      | cons p q =>
        cases hr : h.ReceiveTo s.w.received p <;>
          simp [hp, hr] at hstep <;> cases hstep <;> exact hs
    · cases hstep
  | receiveTo data addr =>
    simp only [step, ReceiveTo_closed h s.w data addr hs] at hstep
    cases hstep; exact hs
  | writeFrom data addr =>
    simp only [step, WriteFrom_closed ipAddrATON s.w data addr hs] at hstep
    cases hstep; exact hs
  | close =>
    simp only [step] at hstep
    cases hstep; rfl
  | setDeadline now t =>
    simp only [step, SetDeadline] at hstep
    cases hd : s.w.conn.deadline <;> simp [hd] at hstep <;> cases hstep <;> exact hs
  | deadlineExpired =>
    simp only [step] at hstep
    cases hd : s.w.conn.deadline <;> simp [hd] at hstep
    cases hstep; rfl

theorem run_keeps_closed (h : UDPConnHandler) (ipAddrATON : String → Except String Nat)
    (evs : List Event) :
    ∀ s s1 : Sys, Event.connectOk ∉ evs → s.w.conn.state = udpConnState.udpClosed →
      run h ipAddrATON s evs = some s1 → s1.w.conn.state = udpConnState.udpClosed := by
  induction evs with
  | nil =>
    intro s s1 _ hs hrun
    simp only [run, Option.some.injEq] at hrun
    exact hrun ▸ hs
  | cons e es ih =>
    intro s s1 hno hs hrun
    simp only [run] at hrun
    cases hst : step h ipAddrATON s e with
    | none => simp [hst] at hrun
    | some s2 =>
      simp only [hst] at hrun
      have hne : e ≠ Event.connectOk := fun he => hno (by simp [he])
      exact ih s2 s1 (fun hm => hno (List.mem_cons_of_mem _ hm))
        (step_keeps_closed h ipAddrATON s s2 e hne hs hst) hrun


/-! ## Behaviour once closed -/

/-- C4 as stated fails: after `Close`, `WriteFrom` with an empty payload does
not return the "connection closed" error; it returns zero bytes and nil. -/
theorem closed_WriteFrom_empty_succeeds :
    WriteFrom atonOk (Close sampleWorld).1 [] (some sampleRemote)
      = some ((Close sampleWorld).1, 0, none) := by
  decide

/-- C4 (amended): after `Close`, and after any further events other than the
connect task's success, `ReceiveTo` returns the error "connection closed" for
every payload and address, and `WriteFrom` returns zero bytes with the error
"connection closed" for every non-empty payload and every address (for an empty
payload it returns zero bytes and nil). Neither call changes anything. -/
theorem calls_after_Close_fail (h : UDPConnHandler)
    (ipAddrATON : String → Except String Nat) (w : World) (task : ConnectPC)
    (evs : List Event) (s : Sys) (data : List Nat) (addr : Option UDPAddr)
    (hno : Event.connectOk ∉ evs)
    (hrun : run h ipAddrATON { w := (Close w).1, task := task } evs = some s) :
    ReceiveTo h s.w data addr = (s.w, some "connection closed") ∧
    (data ≠ [] → WriteFrom ipAddrATON s.w data addr = some (s.w, 0, some "connection closed")) ∧
    (data = [] → WriteFrom ipAddrATON s.w data addr = some (s.w, 0, none)) := by
  have hs : s.w.conn.state = udpConnState.udpClosed :=
    run_keeps_closed h ipAddrATON evs _ s hno rfl hrun
  refine ⟨ReceiveTo_closed h s.w data addr hs, ?_, ?_⟩
  · intro hd
    rw [WriteFrom_closed ipAddrATON s.w data addr hs, if_neg hd]
  · intro hd
    rw [WriteFrom_closed ipAddrATON s.w data addr hs, if_pos hd]

/-- The amended C4 on a sample run: close, then a datagram, a deadline, a
second close and a write; a later write of one byte fails as closed. -/
theorem calls_after_Close_fail_witness :
    Event.connectOk ∉ [Event.receiveTo [1] none, Event.setDeadline 0 5, Event.close,
      Event.writeFrom [2] (some sampleRemote)] ∧
    WriteFrom atonOk
        ({ (Close sampleWorld).1 with
            conn := { (Close sampleWorld).1.conn with deadline := some { d := 5 } },
            timers := 1 } : World) [9] none
      = some (({ (Close sampleWorld).1 with
            conn := { (Close sampleWorld).1.conn with deadline := some { d := 5 } },
            timers := 1 } : World), 0, some "connection closed") :=
  ⟨by decide,
    (calls_after_Close_fail acceptAll atonOk sampleWorld ConnectPC.running
      [Event.receiveTo [1] none, Event.setDeadline 0 5, Event.close,
        Event.writeFrom [2] (some sampleRemote)]
      { w := { (Close sampleWorld).1 with
            conn := { (Close sampleWorld).1.conn with deadline := some { d := 5 } },
            timers := 1 }, task := ConnectPC.running }
      [9] none (by decide) (by decide)).2.1 (by decide)⟩

/-- C5 fails on the code: a close, explicit or by the deadline timer, that
happens while `Connect` is still running is undone when `Connect` returns
success; the step of the connect task leads from Closed to Connected. -/
theorem connect_success_reopens_closed :
    (run acceptAll atonOk (initSys 1 2 5353 (some sampleLocal) [])
        [Event.close]).map (fun s => s.w.conn.state) = some udpConnState.udpClosed ∧
    (run acceptAll atonOk (initSys 1 2 5353 (some sampleLocal) [])
        [Event.close, Event.connectOk]).map (fun s => s.w.conn.state)
      = some udpConnState.udpConnected ∧
    (run acceptAll atonOk (initSys 1 2 5353 (some sampleLocal) [])
        [Event.setDeadline 0 100, Event.deadlineExpired, Event.connectOk]).map
          (fun s => s.w.conn.state)
      = some udpConnState.udpConnected := by
  decide

/-- C7 as stated fails: closing an already closed adapter removes the registry
entry of a newer adapter registered under the same local endpoint. -/
theorem reclose_removes_newer_entry :
    reusedKeyWorld.conn.state = udpConnState.udpClosed ∧
    reusedKeyWorld.udpConns.Load { src := UDPAddr.String (LocalAddr reusedKeyWorld.conn) }
      = some 2 ∧
    (Close reusedKeyWorld).1.udpConns ≠ reusedKeyWorld.udpConns := by
  decide

/-- C7 (amended): for an adapter that is already Closed, `Close` returns nil,
leaves the adapter as it is and leaves every registry entry under another key
as it is; when the registry holds nothing under the adapter's own key (as is
the case after the first `Close`), the whole world is unchanged. -/
theorem reclose_is_noop_without_entry (w : World)
    (hs : w.conn.state = udpConnState.udpClosed) :
    (Close w).2 = none ∧
    (Close w).1.conn = w.conn ∧
    (∀ k : udpConnId, k ≠ { src := UDPAddr.String (LocalAddr w.conn) } →
      (Close w).1.udpConns.Load k = w.udpConns.Load k) ∧
    (w.udpConns.Load { src := UDPAddr.String (LocalAddr w.conn) } = none →
      Close w = (w, none)) ∧
    Close (Close w).1 = Close w := by
  have hconn : ({ w.conn with state := udpConnState.udpClosed } : udpConn) = w.conn := by
    rw [← hs]
  refine ⟨rfl, ?_, ?_, ?_, ?_⟩
  · rw [Close_fst]; exact hconn
  · intro k hk
    rw [Close_fst]
    exact Registry.Load_Delete_other _ _ k hk
  · intro hnone
    have hdel := Registry.Delete_of_Load_none _ _ hnone
    simp only [Close, hdel, hconn]
  · have hdel : ((w.udpConns.Delete { src := UDPAddr.String (LocalAddr w.conn) }).Delete
        { src := UDPAddr.String (LocalAddr w.conn) })
        = w.udpConns.Delete { src := UDPAddr.String (LocalAddr w.conn) } :=
      Registry.Delete_of_Load_none _ _ (Registry.Load_Delete_self _ _)
    simp only [Close, LocalAddr] at hdel ⊢
    rw [hdel]

/-- The amended C7 at a sample adapter closed once: a second `Close` changes
nothing. -/
theorem reclose_is_noop_without_entry_witness :
    (Close sampleWorld).1.conn.state = udpConnState.udpClosed ∧
    Close (Close sampleWorld).1 = ((Close sampleWorld).1, none) :=
  ⟨rfl, (reclose_is_noop_without_entry (Close sampleWorld).1 rfl).2.2.2.1 (by decide)⟩

/-- C8: `Close` returns nil and ends with the state Closed and with no registry
entry under the key made from `LocalAddr().String()`; registry entries under
other keys, the queue and the deadline timer are as before. The callback of the
deadline timer is the same `Close`, as is the event of closing explicitly. -/
theorem Close_effect (h : UDPConnHandler) (ipAddrATON : String → Except String Nat)
    (s : Sys) :
    (Close s.w).2 = none ∧
    (Close s.w).1.conn.state = udpConnState.udpClosed ∧
    (Close s.w).1.udpConns.Load { src := UDPAddr.String (LocalAddr s.w.conn) } = none ∧
    (∀ k : udpConnId, k ≠ { src := UDPAddr.String (LocalAddr s.w.conn) } →
      (Close s.w).1.udpConns.Load k = s.w.udpConns.Load k) ∧
    (∀ e : udpConnId × Nat, e ∈ (Close s.w).1.udpConns ↔
      e ∈ s.w.udpConns ∧ e.1 ≠ { src := UDPAddr.String (LocalAddr s.w.conn) }) ∧
    (Close s.w).1.conn.pending = s.w.conn.pending ∧
    (Close s.w).1.conn.deadline = s.w.conn.deadline ∧
    step h ipAddrATON s Event.close = some { s with w := (Close s.w).1 } ∧
    (∀ timer : Timer, s.w.conn.deadline = some timer →
      step h ipAddrATON s Event.deadlineExpired = some { s with w := (Close s.w).1 }) := by
  refine ⟨rfl, rfl, ?_, ?_, ?_, rfl, rfl, rfl, ?_⟩
  · rw [Close_fst]; exact Registry.Load_Delete_self _ _
  · intro k hk
    rw [Close_fst]; exact Registry.Load_Delete_other _ _ k hk
  · intro e
    rw [Close_fst]; exact Registry.mem_Delete _ _ e
  · intro timer hd
    simp [step, hd]

/-- C8 at a sample adapter whose deadline timer fires. -/
theorem Close_effect_witness :
    step acceptAll atonOk
      { w := (SetDeadline sampleWorld 0 100).1, task := ConnectPC.running }
      Event.deadlineExpired
    = some { w := (Close (SetDeadline sampleWorld 0 100).1).1, task := ConnectPC.running } :=
  (Close_effect acceptAll atonOk
    { w := (SetDeadline sampleWorld 0 100).1, task := ConnectPC.running }).2.2.2.2.2.2.2.2
    { d := 100 } (by decide)


/-! ## The connect task and the drain of the early batch -/

/-- What one event can do to the queue and to the handler's log once the
adapter has left Connecting: nothing, or a forwarded datagram is added to the
log, or the drain moves the oldest buffered datagram to the log. -/
theorem step_effect (h : UDPConnHandler) (ipAddrATON : String → Except String Nat)
    (s s1 : Sys) (e : Event) (hs : s.w.conn.state ≠ udpConnState.udpConnecting)
    (hstep : step h ipAddrATON s e = some s1) :
    s1.w.conn.state ≠ udpConnState.udpConnecting ∧
    (s.task = ConnectPC.finished → s1.task = ConnectPC.finished) ∧
    ((s1.w.conn.pending = s.w.conn.pending ∧ s1.w.received = s.w.received ∧
        receiveArgs [e] = []) ∨
     (s1.w.conn.pending = s.w.conn.pending ∧ s1.w.received = s.w.received ∧
        ∃ p, receiveArgs [e] = [p]) ∨
     (∃ p, receiveArgs [e] = [p] ∧ s1.w.conn.pending = s.w.conn.pending ∧
        s1.w.received = s.w.received ++ [p]) ∨
     (∃ p q, e = Event.drain ∧ s.task = ConnectPC.draining ∧ s.w.conn.pending = p :: q ∧
        s1.w.conn.pending = q ∧ s1.w.received = s.w.received ++ [p])) := by
  cases e with
  | connectOk =>
    simp only [step] at hstep
    split at hstep
    · rename_i ht
      cases hstep
      exact ⟨by simp [setConnected], fun hf => by simp [ht] at hf,
        Or.inl ⟨rfl, rfl, rfl⟩⟩
    · cases hstep
  | connectErr =>
    simp only [step] at hstep
    split at hstep
    · rename_i ht
      cases hstep
      exact ⟨by simp [Close], fun hf => by simp [ht] at hf, Or.inl ⟨rfl, rfl, rfl⟩⟩
    · cases hstep
  | drain =>
    simp only [step, drainOnce] at hstep
    split at hstep
    · rename_i ht
      cases hp : s.w.conn.pending with
      | nil =>
        simp [hp] at hstep
        cases hstep
        exact ⟨hs, fun _ => rfl, Or.inl ⟨hp, rfl, rfl⟩⟩
      | cons p q =>
        cases hr : h.ReceiveTo s.w.received p <;> simp [hp, hr] at hstep <;> cases hstep
        · exact ⟨hs, fun hf => by simp [ht] at hf,
            Or.inr (Or.inr (Or.inr ⟨p, q, rfl, ht, rfl, rfl, rfl⟩))⟩
        · exact ⟨hs, fun _ => rfl,
            Or.inr (Or.inr (Or.inr ⟨p, q, rfl, ht, rfl, rfl, rfl⟩))⟩
    · cases hstep
  | receiveTo data addr =>
    simp only [step] at hstep
    cases hstep
    cases hst : s.w.conn.state with
    | udpConnecting => exact absurd hst hs
    | udpConnected =>
      rw [ReceiveTo_connected h s.w data addr hst]
      exact ⟨by simp [hst], fun hf => hf,
        Or.inr (Or.inr (Or.inl ⟨_, rfl, rfl, rfl⟩))⟩
    | udpClosed =>
      rw [ReceiveTo_closed h s.w data addr hst]
      exact ⟨by simp [hst], fun hf => hf, Or.inr (Or.inl ⟨rfl, rfl, _, rfl⟩)⟩
  | writeFrom data addr =>
    simp only [step] at hstep
    cases hw : WriteFrom ipAddrATON s.w data addr with
    | none => simp [hw] at hstep
    | some r =>
      simp only [hw, Option.some.injEq] at hstep
      cases hstep
      have hr : r.1.conn = s.w.conn ∧ r.1.received = s.w.received := by
        unfold WriteFrom at hw
        split at hw
        · cases hw; exact ⟨rfl, rfl⟩
        · split at hw
          · cases hw; exact ⟨rfl, rfl⟩
          · split at hw
            · cases hw
            · split at hw <;> cases hw <;> exact ⟨rfl, rfl⟩
      exact ⟨by simpa [hr.1] using hs, fun hf => hf,
        Or.inl ⟨by simp [hr.1], hr.2, rfl⟩⟩
  | close =>
    simp only [step] at hstep
    cases hstep
    exact ⟨by simp [Close], fun hf => hf, Or.inl ⟨rfl, rfl, rfl⟩⟩
  | setDeadline now t =>
    simp only [step, SetDeadline] at hstep
    cases hd : s.w.conn.deadline <;> simp [hd] at hstep <;> cases hstep <;>
      exact ⟨hs, fun hf => hf, Or.inl ⟨rfl, rfl, rfl⟩⟩
  | deadlineExpired =>
    simp only [step] at hstep
    cases hd : s.w.conn.deadline <;> simp [hd] at hstep
    cases hstep
    exact ⟨by simp [Close], fun hf => hf, Or.inl ⟨rfl, rfl, rfl⟩⟩

theorem receiveArgs_cons (e : Event) (es : List Event) :
    receiveArgs (e :: es) = receiveArgs [e] ++ receiveArgs es := by
  cases e <;> simp [receiveArgs]


/-- Once the adapter has left Connecting, a run only shortens the queue from
its head: the datagrams taken off the queue and the datagrams forwarded by
`ReceiveTo` are what is added to the handler's log, each group in its own
order. -/
theorem run_after_transition (h : UDPConnHandler) (ipAddrATON : String → Except String Nat)
    (evs : List Event) :
    ∀ s s1 : Sys, s.w.conn.state ≠ udpConnState.udpConnecting →
      run h ipAddrATON s evs = some s1 →
      s1.w.conn.state ≠ udpConnState.udpConnecting ∧
      ∃ (k : Nat) (fwd rest : List udpPacket),
        s1.w.conn.pending = s.w.conn.pending.drop k ∧
        s1.w.received = s.w.received ++ rest ∧
        fwd.Sublist (receiveArgs evs) ∧
        (s.w.conn.pending.take k).Sublist rest ∧
        fwd.Sublist rest ∧
        rest.Perm (s.w.conn.pending.take k ++ fwd) := by
  induction evs with
  | nil =>
    intro s s1 hs hrun
    simp only [run, Option.some.injEq] at hrun
    subst hrun
    exact ⟨hs, 0, [], [], by simp, by simp, by simp, by simp, by simp, by simp⟩
  | cons e es ih =>
    intro s s1 hs hrun
    simp only [run] at hrun
    cases hst : step h ipAddrATON s e with
    | none => simp [hst] at hrun
    | some s2 =>
      simp only [hst] at hrun
      obtain ⟨hs2, _, heff⟩ := step_effect h ipAddrATON s s2 e hs hst
      obtain ⟨hs1, k, fwd, rest, hpend, hrec, hfwd, htake, hfr, hperm⟩ := ih s2 s1 hs2 hrun
      refine ⟨hs1, ?_⟩
      rw [receiveArgs_cons]
      rcases heff with ⟨hp, hr, ha⟩ | ⟨hp, hr, p, ha⟩ | ⟨p, ha, hp, hr⟩ | ⟨p, q, he, _, hpq, hp, hr⟩
      · rw [hp] at hpend htake hperm
        rw [hr] at hrec
        exact ⟨k, fwd, rest, hpend, hrec, by rw [ha]; simpa using hfwd, htake, hfr, hperm⟩
      · rw [hp] at hpend htake hperm
        rw [hr] at hrec
        exact ⟨k, fwd, rest, hpend, hrec,
          by rw [ha]; exact List.Sublist.cons p hfwd, htake, hfr, hperm⟩
      · rw [hp] at hpend htake hperm
        rw [hr] at hrec
        refine ⟨k, p :: fwd, p :: rest, hpend, by simpa using hrec,
          by rw [ha]; exact List.Sublist.cons₂ p hfwd, List.Sublist.cons p htake,
          List.Sublist.cons₂ p hfr, ?_⟩
        exact (List.Perm.cons p hperm).trans List.perm_middle.symm
      · rw [hp] at hpend htake hperm
        rw [hr] at hrec
        subst he
        refine ⟨k + 1, fwd, p :: rest, by simpa [hpq] using hpend, by simpa using hrec,
          by simpa [receiveArgs] using hfwd, ?_, List.Sublist.cons p hfr, ?_⟩
        · rw [hpq, List.take_succ_cons]
          exact List.Sublist.cons₂ p htake
        · rw [hpq, List.take_succ_cons]
          exact List.Perm.cons p hperm

/-- After the connect task has finished, no event takes anything off the queue:
the queue stays as it is and the handler's log grows only by datagrams
forwarded by `ReceiveTo`. -/
theorem run_after_drain (h : UDPConnHandler) (ipAddrATON : String → Except String Nat)
    (evs : List Event) :
    ∀ s s1 : Sys, s.w.conn.state ≠ udpConnState.udpConnecting →
      s.task = ConnectPC.finished →
      run h ipAddrATON s evs = some s1 →
      s1.w.conn.pending = s.w.conn.pending ∧
      ∃ fwd : List udpPacket, fwd.Sublist (receiveArgs evs) ∧
        s1.w.received = s.w.received ++ fwd := by
  induction evs with
  | nil =>
    intro s s1 _ _ hrun
    simp only [run, Option.some.injEq] at hrun
    subst hrun
    exact ⟨rfl, [], by simp, by simp⟩
  | cons e es ih =>
    intro s s1 hs hfin hrun
    simp only [run] at hrun
    cases hst : step h ipAddrATON s e with
    | none => simp [hst] at hrun
    | some s2 =>
      simp only [hst] at hrun
      obtain ⟨hs2, hfin2, heff⟩ := step_effect h ipAddrATON s s2 e hs hst
      obtain ⟨hpend, fwd, hfwd, hrec⟩ := ih s2 s1 hs2 (hfin2 hfin) hrun
      rw [receiveArgs_cons]
      rcases heff with ⟨hp, hr, ha⟩ | ⟨hp, hr, p, ha⟩ | ⟨p, ha, hp, hr⟩ | ⟨p, q, _, ht, _, _, _⟩
      · exact ⟨hpend.trans hp, fwd, by rw [ha]; simpa using hfwd, by rw [hrec, hr]⟩
      · exact ⟨hpend.trans hp, fwd, by rw [ha]; exact List.Sublist.cons p hfwd,
          by rw [hrec, hr]⟩
      · exact ⟨hpend.trans hp, p :: fwd, by rw [ha]; exact List.Sublist.cons₂ p hfwd,
          by rw [hrec, hr]; simp⟩
      · rw [hfin] at ht; cases ht

/-- While the connect task is still inside `Connect`, the adapter is never
Connected and the handler's `ReceiveTo` has not been invoked. -/
theorem run_before_transition (h : UDPConnHandler) (ipAddrATON : String → Except String Nat)
    (evs : List Event) :
    ∀ s s1 : Sys, run h ipAddrATON s evs = some s1 → s1.task = ConnectPC.running →
      s.task = ConnectPC.running ∧
      (s.w.conn.state ≠ udpConnState.udpConnected → s.w.received = [] →
        s1.w.conn.state ≠ udpConnState.udpConnected ∧ s1.w.received = []) := by
  induction evs with
  | nil =>
    intro s s1 hrun ht
    simp only [run, Option.some.injEq] at hrun
    subst hrun
    exact ⟨ht, fun a b => ⟨a, b⟩⟩
  | cons e es ih =>
    intro s s1 hrun ht
    simp only [run] at hrun
    cases hst : step h ipAddrATON s e with
    | none => simp [hst] at hrun
    | some s2 =>
      simp only [hst] at hrun
      obtain ⟨ht2, himp⟩ := ih s2 s1 hrun ht
      have key : s.task = ConnectPC.running ∧
          (s.w.conn.state ≠ udpConnState.udpConnected → s.w.received = [] →
            s2.w.conn.state ≠ udpConnState.udpConnected ∧ s2.w.received = []) := by
        cases e with
        | connectOk =>
          simp only [step] at hst
          split at hst
          · cases hst; cases ht2
          · cases hst
        | connectErr =>
          simp only [step] at hst
          split at hst
          · cases hst; cases ht2
          · cases hst
        | drain =>
          simp only [step] at hst
          split at hst
          · split at hst <;> cases hst <;> cases ht2
          · cases hst
        | receiveTo data addr =>
          simp only [step] at hst
          cases hst
          refine ⟨ht2, fun hnc hrec => ?_⟩
          cases hstate : s.w.conn.state with
          | udpConnected => exact absurd hstate hnc
          | udpClosed =>
            rw [ReceiveTo_closed h s.w data addr hstate]
            exact ⟨by simp [hstate], hrec⟩
          | udpConnecting =>
            by_cases hroom : s.w.conn.pending.length < pendingCap
            · rw [ReceiveTo_connecting_room h s.w data addr hstate hroom]
              exact ⟨by simp [hstate], hrec⟩
            · rw [ReceiveTo_connecting_full h s.w data addr hstate (by omega)]
              exact ⟨by simp [hstate], hrec⟩
        | writeFrom data addr =>
          simp only [step] at hst
          cases hw : WriteFrom ipAddrATON s.w data addr with
          | none => simp [hw] at hst
          | some r =>
            simp only [hw, Option.some.injEq] at hst
            cases hst
            refine ⟨ht2, fun hnc hrec => ?_⟩
            have hr : r.1.conn = s.w.conn ∧ r.1.received = s.w.received := by
              unfold WriteFrom at hw
              split at hw
              · cases hw; exact ⟨rfl, rfl⟩
              · split at hw
                · cases hw; exact ⟨rfl, rfl⟩
                · split at hw
                  · cases hw
                  · split at hw <;> cases hw <;> exact ⟨rfl, rfl⟩
            exact ⟨by simpa [hr.1] using hnc, by simpa [hr.2] using hrec⟩
        | close =>
          simp only [step] at hst
          cases hst
          exact ⟨ht2, fun _ hrec => ⟨by simp [Close], hrec⟩⟩
        | setDeadline now t =>
          simp only [step, SetDeadline] at hst
          cases hd : s.w.conn.deadline <;> simp [hd] at hst <;> cases hst <;>
            exact ⟨ht2, fun hnc hrec => ⟨hnc, hrec⟩⟩
        | deadlineExpired =>
          simp only [step] at hst
          cases hd : s.w.conn.deadline <;> simp [hd] at hst
          cases hst
          exact ⟨ht2, fun _ hrec => ⟨by simp [Close], hrec⟩⟩
      refine ⟨key.1, fun hnc hrec => ?_⟩
      obtain ⟨a, b⟩ := key.2 hnc hrec
      exact himp a b


/-- The drain loop hands the buffered datagrams to the handler from the oldest
on and stops after the first one the handler rejects. -/
theorem drainFrom_stops_at_first_error (h : UDPConnHandler) (q : List udpPacket) :
    ∀ w : World, w.conn.pending = q →
      ∃ k : Nat, k ≤ q.length ∧
        (drainFrom h w q).received = w.received ++ q.take k ∧
        (drainFrom h w q).conn.pending = q.drop k ∧
        (drainFrom h w q).conn.state = w.conn.state ∧
        (∀ (i : Nat) (p : udpPacket), i + 1 < k → q[i]? = some p →
          h.ReceiveTo (w.received ++ q.take i) p = none) ∧
        (k < q.length → ∃ p : udpPacket, 1 ≤ k ∧ q[k - 1]? = some p ∧
          h.ReceiveTo (w.received ++ q.take (k - 1)) p ≠ none) ∧
        ((∀ (i : Nat) (p : udpPacket), q[i]? = some p →
          h.ReceiveTo (w.received ++ q.take i) p = none) → k = q.length) := by
  induction q with
  | nil =>
    intro w hq
    exact ⟨0, by simp, by simp [drainFrom], by simp [drainFrom, hq], by simp [drainFrom],
      by simp, by simp, by simp⟩
  | cons p rest ih =>
    intro w _
    cases hr : h.ReceiveTo w.received p with
    | some err =>
      refine ⟨1, by simp, by simp [drainFrom, hr], by simp [drainFrom, hr],
        by simp [drainFrom, hr], by simp, ?_, ?_⟩
      · intro _
        exact ⟨p, le_refl 1, by simp, by simp [hr]⟩
      · intro hall
        have := hall 0 p (by simp)
        simp [hr] at this
    | none =>
      obtain ⟨k, hk, hrec, hpend, hstate, hok, hfail, hall⟩ :=
        ih { w with conn := { w.conn with pending := rest },
                    received := w.received ++ [p] } rfl
      refine ⟨k + 1, by simpa using hk, ?_, ?_, ?_, ?_, ?_, ?_⟩
      · simp only [drainFrom, hr]
        rw [hrec]; simp
      · simp only [drainFrom, hr]
        rw [hpend]; simp
      · simp only [drainFrom, hr]
        rw [hstate]
      · intro i p1 hi hget
        cases i with
        | zero =>
          simp only [List.getElem?_cons_zero, Option.some.injEq] at hget
          subst hget
          simpa using hr
        | succ j =>
          simp only [List.getElem?_cons_succ] at hget
          have := hok j p1 (by omega) hget
          simpa using this
      · intro hlt
        obtain ⟨p1, hk1, hget, hne⟩ := hfail (by simpa using hlt)
        refine ⟨p1, by omega, ?_, ?_⟩
        · obtain ⟨j, rfl⟩ : ∃ j, k = j + 1 := ⟨k - 1, by omega⟩
          simpa using hget
        · obtain ⟨j, rfl⟩ : ∃ j, k = j + 1 := ⟨k - 1, by omega⟩
          simpa using hne
      · intro hall1
        have hk2 : k = rest.length := by
          apply hall
          intro i p1 hget
          have := hall1 (i + 1) p1 (by simpa using hget)
          simpa using this
        simp [hk2]

/-- The drain loop run in one go is the drain taken turn by turn: some number
of `drain` events leads from the draining task to the finished task with the
world `drainFrom` computes. -/
theorem drainFrom_as_run (h : UDPConnHandler) (ipAddrATON : String → Except String Nat)
    (q : List udpPacket) :
    ∀ w : World, w.conn.pending = q →
      ∃ n : Nat, n ≤ q.length + 1 ∧
        run h ipAddrATON { w := w, task := ConnectPC.draining } (List.replicate n Event.drain)
          = some { w := drainFrom h w q, task := ConnectPC.finished } := by
  induction q with
  | nil =>
    intro w hq
    exact ⟨1, by simp, by simp [run, step, drainOnce, hq, drainFrom]⟩
  | cons p rest ih =>
    intro w hq
    cases hr : h.ReceiveTo w.received p with
    | some err =>
      exact ⟨1, by simp, by simp [run, step, drainOnce, hq, drainFrom, hr]⟩
    | none =>
      obtain ⟨n, hn, hrun⟩ :=
        ih { w with conn := { w.conn with pending := rest },
                    received := w.received ++ [p] } rfl
      refine ⟨n + 1, by simpa using hn, ?_⟩
      simp only [List.replicate_succ, run, step, drainOnce, hq, hr, if_true, drainFrom]
      exact hrun

/-- The connect task run without interference is one of the interleavings of
the system: `Connect` returns success and the drain takes its turns. -/
theorem connectGoroutine_as_run (h : UDPConnHandler) (ipAddrATON : String → Except String Nat)
    (remoteAddr : Option UDPAddr) (w : World) (hconn : h.Connect remoteAddr = none) :
    ∃ n : Nat,
      run h ipAddrATON { w := w, task := ConnectPC.running }
          (Event.connectOk :: List.replicate n Event.drain)
        = some { w := connectGoroutine h remoteAddr w, task := ConnectPC.finished } := by
  obtain ⟨n, _, hrun⟩ := drainFrom_as_run h ipAddrATON w.conn.pending (setConnected w) rfl
  refine ⟨n, ?_⟩
  simp only [run, step, if_true, connectGoroutine, hconn, drainPending]
  exact hrun

/-- C9 as stated fails: after the connect task has set the state to Connected
and before it has drained the queue, `ReceiveTo` sees Connected and hands a new
datagram to the handler while the buffered one is still in the queue. -/
theorem late_datagram_overtakes_early_batch :
    run acceptAll atonOk (initSys 1 2 5353 (some sampleLocal) [])
        [Event.receiveTo [1] (some sampleRemote), Event.connectOk,
          Event.receiveTo [2] (some sampleRemote)]
      = some
        { w := { conn := { newUDPConn 1 2 5353 (some sampleLocal) with
                    state := udpConnState.udpConnected, pending := [samplePkt 1] },
                 udpConns := [], received := [samplePkt 2], sent := [], timers := 0 },
          task := ConnectPC.draining } := by
  decide

/-- C9 (amended): in every interleaving of the events of a fresh adapter, up to
the moment the connect task sets the state to Connected the adapter is not
Connected and the handler's `ReceiveTo` has not been invoked; from that moment
on nothing is added to the queue, and the datagrams buffered at that moment
leave the queue from its head and reach the handler in arrival order, the
handler's log being made of them and of the datagrams forwarded by later
`ReceiveTo` calls, each group in its own order. -/
theorem early_batch_drained_in_order (h : UDPConnHandler)
    (ipAddrATON : String → Except String Nat) (pcb localIP localPort : Nat)
    (localAddr : Option UDPAddr) (reg : Registry) (before after : List Event) (s1 s : Sys)
    (hbefore : run h ipAddrATON (initSys pcb localIP localPort localAddr reg) before = some s1)
    (hafter : run h ipAddrATON s1 (Event.connectOk :: after) = some s) :
    s1.w.conn.state ≠ udpConnState.udpConnected ∧
    s1.w.received = [] ∧
    ∃ (k : Nat) (fwd : List udpPacket),
      s.w.conn.pending = s1.w.conn.pending.drop k ∧
      fwd.Sublist (receiveArgs after) ∧
      (s1.w.conn.pending.take k).Sublist s.w.received ∧
      fwd.Sublist s.w.received ∧
      s.w.received.Perm (s1.w.conn.pending.take k ++ fwd) := by
  have hrunning : s1.task = ConnectPC.running := by
    simp only [run, step] at hafter
    by_contra hne
    simp [hne] at hafter
  obtain ⟨_, hinv⟩ := run_before_transition h ipAddrATON before _ s1 hbefore hrunning
  obtain ⟨hnc, hrec⟩ := hinv (by simp [initSys, newUDPConn]) rfl
  refine ⟨hnc, hrec, ?_⟩
  simp only [run, step, hrunning, if_true] at hafter
  obtain ⟨_, k, fwd, rest, hpend, hrest, hfwd, htake, hfr, hperm⟩ :=
    run_after_transition h ipAddrATON after _ s (by simp [setConnected]) hafter
  have hrest2 : s.w.received = rest := by
    rw [hrest]; simp [setConnected, hrec]
  refine ⟨k, fwd, by simpa [setConnected] using hpend, hfwd, ?_, ?_, ?_⟩
  · rw [hrest2]; simpa [setConnected] using htake
  · rw [hrest2]; exact hfr
  · rw [hrest2]; simpa [setConnected] using hperm

/-- The amended C9 on a sample interleaving: one datagram is buffered, the
connect task connects, one more datagram arrives, and the drain runs. -/
theorem early_batch_drained_in_order_witness :
    run acceptAll atonOk (initSys 1 2 5353 (some sampleLocal) [])
        [Event.receiveTo [1] (some sampleRemote)] = some bufferedSys ∧
    run acceptAll atonOk bufferedSys
        [Event.connectOk, Event.receiveTo [2] (some sampleRemote), Event.drain]
      = some overtakenSys ∧
    (bufferedSys.w.conn.state ≠ udpConnState.udpConnected ∧
      bufferedSys.w.received = [] ∧
      ∃ (k : Nat) (fwd : List udpPacket),
        overtakenSys.w.conn.pending = bufferedSys.w.conn.pending.drop k ∧
        fwd.Sublist (receiveArgs [Event.receiveTo [2] (some sampleRemote), Event.drain]) ∧
        (bufferedSys.w.conn.pending.take k).Sublist overtakenSys.w.received ∧
        fwd.Sublist overtakenSys.w.received ∧
        overtakenSys.w.received.Perm (bufferedSys.w.conn.pending.take k ++ fwd)) :=
  ⟨by decide, by decide,
    early_batch_drained_in_order acceptAll atonOk 1 2 5353 (some sampleLocal) []
      [Event.receiveTo [1] (some sampleRemote)]
      [Event.receiveTo [2] (some sampleRemote), Event.drain]
      bufferedSys overtakenSys (by decide) (by decide)⟩


/-- C10: when `Connect` returns success with the queue holding p1, ..., pn, the
drain invokes the handler's `ReceiveTo` on p1, ..., pk in that order, where pk
is the first datagram whose delivery returns an error (k = n when none does);
the datagrams after pk stay in the queue and no later event delivers them (the
queue never changes again and the handler's log grows only by datagrams passed
to later `ReceiveTo` calls); the state after the drain is Connected. -/
theorem drain_delivers_up_to_first_error (h : UDPConnHandler)
    (ipAddrATON : String → Except String Nat) (remoteAddr : Option UDPAddr) (w : World)
    (hconn : h.Connect remoteAddr = none) :
    ∃ k : Nat, k ≤ w.conn.pending.length ∧
      (connectGoroutine h remoteAddr w).received = w.received ++ w.conn.pending.take k ∧
      (connectGoroutine h remoteAddr w).conn.pending = w.conn.pending.drop k ∧
      (connectGoroutine h remoteAddr w).conn.state = udpConnState.udpConnected ∧
      (∀ (i : Nat) (p : udpPacket), i + 1 < k → w.conn.pending[i]? = some p →
        h.ReceiveTo (w.received ++ w.conn.pending.take i) p = none) ∧
      (k < w.conn.pending.length → ∃ p : udpPacket, 1 ≤ k ∧
        w.conn.pending[k - 1]? = some p ∧
        h.ReceiveTo (w.received ++ w.conn.pending.take (k - 1)) p ≠ none) ∧
      ((∀ (i : Nat) (p : udpPacket), w.conn.pending[i]? = some p →
        h.ReceiveTo (w.received ++ w.conn.pending.take i) p = none) →
        k = w.conn.pending.length) ∧
      (∀ (evs : List Event) (s : Sys),
        run h ipAddrATON
          { w := connectGoroutine h remoteAddr w, task := ConnectPC.finished } evs = some s →
        s.w.conn.pending = w.conn.pending.drop k ∧
        ∃ fwd : List udpPacket, fwd.Sublist (receiveArgs evs) ∧
          s.w.received = (w.received ++ w.conn.pending.take k) ++ fwd) := by
  obtain ⟨k, hk, hrec, hpend, hstate, hok, hfail, hall⟩ :=
    drainFrom_stops_at_first_error h w.conn.pending (setConnected w) rfl
  have hgo : connectGoroutine h remoteAddr w = drainFrom h (setConnected w) w.conn.pending := by
    simp [connectGoroutine, hconn, drainPending, setConnected]
  rw [hgo]
  refine ⟨k, hk, hrec, hpend, hstate, hok, hfail, hall, ?_⟩
  intro evs s hrun
  have hne : (drainFrom h (setConnected w) w.conn.pending).conn.state
      ≠ udpConnState.udpConnecting := by
    rw [hstate]; simp [setConnected]
  obtain ⟨hp, fwd, hfwd, hr⟩ := run_after_drain h ipAddrATON evs
    (Sys.mk (drainFrom h (setConnected w) w.conn.pending) ConnectPC.finished) s hne rfl hrun
  refine ⟨hp.trans hpend, fwd, hfwd, ?_⟩
  rw [hr]
  show (drainFrom h (setConnected w) w.conn.pending).received ++ fwd = _
  rw [hrec]; rfl

/-- C10 at a handler that rejects empty payloads and a queue whose second
datagram is empty: two datagrams reach the handler and the third stays in the
queue, also after a later `ReceiveTo`, with the adapter Connected. -/
theorem drain_delivers_up_to_first_error_witness :
    rejectEmpty.Connect none = none ∧
    (connectGoroutine rejectEmpty none threeBuffered).received
      = [samplePkt 1, { data := [], addr := none }] ∧
    (connectGoroutine rejectEmpty none threeBuffered).conn.pending = [samplePkt 3] ∧
    (∃ k : Nat, k ≤ threeBuffered.conn.pending.length ∧
      (connectGoroutine rejectEmpty none threeBuffered).received
        = threeBuffered.received ++ threeBuffered.conn.pending.take k ∧
      (connectGoroutine rejectEmpty none threeBuffered).conn.pending
        = threeBuffered.conn.pending.drop k ∧
      (connectGoroutine rejectEmpty none threeBuffered).conn.state
        = udpConnState.udpConnected ∧
      (∀ (i : Nat) (p : udpPacket), i + 1 < k → threeBuffered.conn.pending[i]? = some p →
        rejectEmpty.ReceiveTo (threeBuffered.received ++ threeBuffered.conn.pending.take i) p
          = none) ∧
      (k < threeBuffered.conn.pending.length → ∃ p : udpPacket, 1 ≤ k ∧
        threeBuffered.conn.pending[k - 1]? = some p ∧
        rejectEmpty.ReceiveTo
          (threeBuffered.received ++ threeBuffered.conn.pending.take (k - 1)) p ≠ none) ∧
      ((∀ (i : Nat) (p : udpPacket), threeBuffered.conn.pending[i]? = some p →
        rejectEmpty.ReceiveTo (threeBuffered.received ++ threeBuffered.conn.pending.take i) p
          = none) →
        k = threeBuffered.conn.pending.length) ∧
      (∀ (evs : List Event) (s : Sys),
        run rejectEmpty atonOk
          { w := connectGoroutine rejectEmpty none threeBuffered,
            task := ConnectPC.finished } evs = some s →
        s.w.conn.pending = threeBuffered.conn.pending.drop k ∧
        ∃ fwd : List udpPacket, fwd.Sublist (receiveArgs evs) ∧
          s.w.received
            = (threeBuffered.received ++ threeBuffered.conn.pending.take k) ++ fwd)) :=
  ⟨rfl, by decide, by decide,
    drain_delivers_up_to_first_error rejectEmpty atonOk none threeBuffered rfl⟩


/-! ## A failed connect -/

/-- Once the connect task has finished with the adapter Closed, every event
leaves the adapter Closed, the queue and the handler's log as they are, and a
registry without an entry under the adapter's key without one. -/
theorem step_closed_finished (h : UDPConnHandler) (ipAddrATON : String → Except String Nat)
    (s s1 : Sys) (e : Event) (ht : s.task = ConnectPC.finished)
    (hs : s.w.conn.state = udpConnState.udpClosed)
    (hstep : step h ipAddrATON s e = some s1) :
    s1.task = ConnectPC.finished ∧
    s1.w.conn.state = udpConnState.udpClosed ∧
    s1.w.received = s.w.received ∧
    s1.w.conn.pending = s.w.conn.pending ∧
    s1.w.conn.localAddr = s.w.conn.localAddr ∧
    (s.w.udpConns.Load { src := UDPAddr.String (LocalAddr s.w.conn) } = none →
      s1.w.udpConns.Load { src := UDPAddr.String (LocalAddr s.w.conn) } = none) := by
  cases e with
  | connectOk => simp [step, ht] at hstep
  | connectErr => simp [step, ht] at hstep
  | drain => simp [step, ht] at hstep
  | receiveTo data addr =>
    simp only [step, ReceiveTo_closed h s.w data addr hs] at hstep
    cases hstep
    exact ⟨ht, hs, rfl, rfl, rfl, fun hl => hl⟩
  | writeFrom data addr =>
    simp only [step, WriteFrom_closed ipAddrATON s.w data addr hs] at hstep
    cases hstep
    exact ⟨ht, hs, rfl, rfl, rfl, fun hl => hl⟩
  | close =>
    simp only [step] at hstep
    cases hstep
    exact ⟨ht, rfl, rfl, rfl, rfl, fun _ => Registry.Load_Delete_self _ _⟩
  | setDeadline now t =>
    simp only [step, SetDeadline] at hstep
    cases hd : s.w.conn.deadline <;> simp [hd] at hstep <;> cases hstep <;>
      exact ⟨ht, hs, rfl, rfl, rfl, fun hl => hl⟩
  | deadlineExpired =>
    simp only [step] at hstep
    cases hd : s.w.conn.deadline <;> simp [hd] at hstep
    cases hstep
    exact ⟨ht, rfl, rfl, rfl, rfl, fun _ => Registry.Load_Delete_self _ _⟩

theorem run_closed_finished (h : UDPConnHandler) (ipAddrATON : String → Except String Nat)
    (evs : List Event) :
    ∀ s s1 : Sys, s.task = ConnectPC.finished → s.w.conn.state = udpConnState.udpClosed →
      run h ipAddrATON s evs = some s1 →
      s1.task = ConnectPC.finished ∧
      s1.w.conn.state = udpConnState.udpClosed ∧
      s1.w.received = s.w.received ∧
      s1.w.conn.pending = s.w.conn.pending ∧
      s1.w.conn.localAddr = s.w.conn.localAddr ∧
      (s.w.udpConns.Load { src := UDPAddr.String (LocalAddr s.w.conn) } = none →
        s1.w.udpConns.Load { src := UDPAddr.String (LocalAddr s.w.conn) } = none) := by
  induction evs with
  | nil =>
    intro s s1 ht hs hrun
    simp only [run, Option.some.injEq] at hrun
    subst hrun
    exact ⟨ht, hs, rfl, rfl, rfl, fun hl => hl⟩
  | cons e es ih =>
    intro s s1 ht hs hrun
    simp only [run] at hrun
    cases hst : step h ipAddrATON s e with
    | none => simp [hst] at hrun
    | some s2 =>
      simp only [hst] at hrun
      obtain ⟨ht2, hs2, hr2, hp2, hl2, hreg2⟩ :=
        step_closed_finished h ipAddrATON s s2 e ht hs hst
      obtain ⟨ht1, hs1, hr1, hp1, hl1, hreg1⟩ := ih s2 s1 ht2 hs2 hrun
      refine ⟨ht1, hs1, hr1.trans hr2, hp1.trans hp2, hl1.trans hl2, fun hl => ?_⟩
      have hkey : LocalAddr s2.w.conn = LocalAddr s.w.conn := hl2
      rw [hkey] at hreg1
      exact hreg1 (hreg2 hl)

/-- C11: when the handler's `Connect` returns an error, whatever the queue
holds, the adapter was never Connected before, the connect task closes it
(state Closed, registry entry under its key removed) and is finished; the
buffered datagrams stay where they are and the handler's `ReceiveTo` is never
invoked, neither before nor by any later event. The goroutine run in one go
is just `Close`. -/
theorem failed_connect_closes_without_delivery (h : UDPConnHandler)
    (ipAddrATON : String → Except String Nat) (pcb localIP localPort : Nat)
    (localAddr : Option UDPAddr) (reg : Registry) (before after : List Event) (s1 s : Sys)
    (hbefore : run h ipAddrATON (initSys pcb localIP localPort localAddr reg) before = some s1)
    (hafter : run h ipAddrATON s1 (Event.connectErr :: after) = some s) :
    s1.w.conn.state ≠ udpConnState.udpConnected ∧
    s1.w.received = [] ∧
    step h ipAddrATON s1 Event.connectErr
      = some { w := (Close s1.w).1, task := ConnectPC.finished } ∧
    s.task = ConnectPC.finished ∧
    s.w.conn.state = udpConnState.udpClosed ∧
    s.w.udpConns.Load { src := UDPAddr.String (LocalAddr s1.w.conn) } = none ∧
    s.w.received = [] ∧
    s.w.conn.pending = s1.w.conn.pending ∧
    (∀ (remoteAddr : Option UDPAddr) (w : World), h.Connect remoteAddr ≠ none →
      connectGoroutine h remoteAddr w = (Close w).1) := by
  have hrunning : s1.task = ConnectPC.running := by
    simp only [run, step] at hafter
    by_contra hne
    simp [hne] at hafter
  obtain ⟨_, hinv⟩ := run_before_transition h ipAddrATON before _ s1 hbefore hrunning
  obtain ⟨hnc, hrec⟩ := hinv (by simp [initSys, newUDPConn]) rfl
  have hstep : step h ipAddrATON s1 Event.connectErr
      = some { w := (Close s1.w).1, task := ConnectPC.finished } := by
    simp [step, hrunning]
  simp only [run, hstep] at hafter
  obtain ⟨ht, hs, hr, hp, _, hreg⟩ :=
    run_closed_finished h ipAddrATON after _ s rfl rfl hafter
  refine ⟨hnc, hrec, hstep, ht, hs, ?_, ?_, ?_, ?_⟩
  · exact hreg (Registry.Load_Delete_self _ _)
  · rw [hr]; exact hrec
  · rw [hp]; rfl
  · intro remoteAddr w hne
    cases hc : h.Connect remoteAddr with
    | none => exact absurd hc hne
    | some err => simp [connectGoroutine, hc]


/-- C11 on a sample run: a datagram is buffered, `Connect` fails, a second
datagram arrives; the adapter ends Closed with nothing given to the handler. -/
theorem failed_connect_closes_without_delivery_witness :
    run refuseConnect atonOk (initSys 1 2 5353 (some sampleLocal) [])
        [Event.receiveTo [1] (some sampleRemote)] = some bufferedSys ∧
    run refuseConnect atonOk bufferedSys
        [Event.connectErr, Event.receiveTo [2] (some sampleRemote)] = some failedSys ∧
    failedSys.w.conn.state = udpConnState.udpClosed ∧
    failedSys.w.received = [] :=
  ⟨by decide, by decide,
    (failed_connect_closes_without_delivery refuseConnect atonOk 1 2 5353 (some sampleLocal) []
      [Event.receiveTo [1] (some sampleRemote)] [Event.receiveTo [2] (some sampleRemote)]
      bufferedSys failedSys (by decide) (by decide)).2.2.2.2.1,
    (failed_connect_closes_without_delivery refuseConnect atonOk 1 2 5353 (some sampleLocal) []
      [Event.receiveTo [1] (some sampleRemote)] [Event.receiveTo [2] (some sampleRemote)]
      bufferedSys failedSys (by decide) (by decide)).2.2.2.2.2.2.1⟩

/-! ## Delivery happens only after the handshake -/

theorem checkState_eq_none (conn : udpConn) :
    checkState conn = none ↔ conn.state = udpConnState.udpConnected := by
  cases hs : conn.state <;> simp [checkState, hs]

/-- An event invokes the handler's `ReceiveTo` only when it is a turn of the
drain or a `ReceiveTo` call on a Connected adapter. -/
theorem step_delivers_only (h : UDPConnHandler) (ipAddrATON : String → Except String Nat)
    (s s1 : Sys) (e : Event) (hstep : step h ipAddrATON s e = some s1)
    (hne : s1.w.received ≠ s.w.received) :
    (e = Event.drain ∧ s.task = ConnectPC.draining) ∨
    (∃ data addr, e = Event.receiveTo data addr ∧
      s.w.conn.state = udpConnState.udpConnected) := by
  cases e with
  | connectOk =>
    simp only [step] at hstep
    split at hstep <;> cases hstep
    exact absurd rfl hne
  | connectErr =>
    simp only [step] at hstep
    split at hstep <;> cases hstep
    exact absurd rfl hne
  | drain =>
    simp only [step] at hstep
    split at hstep
    · rename_i ht; exact Or.inl ⟨rfl, ht⟩
    · cases hstep
  | receiveTo data addr =>
    simp only [step] at hstep
    cases hstep
    cases hst : s.w.conn.state with
    | udpConnected => exact Or.inr ⟨data, addr, rfl, rfl⟩
    | udpClosed =>
      rw [ReceiveTo_closed h s.w data addr hst] at hne
      exact absurd rfl hne
    | udpConnecting =>
      by_cases hroom : s.w.conn.pending.length < pendingCap
      · rw [ReceiveTo_connecting_room h s.w data addr hst hroom] at hne
        exact absurd rfl hne
      · rw [ReceiveTo_connecting_full h s.w data addr hst (by omega)] at hne
        exact absurd rfl hne
  | writeFrom data addr =>
    simp only [step] at hstep
    cases hw : WriteFrom ipAddrATON s.w data addr with
    | none => simp [hw] at hstep
    | some r =>
      simp only [hw, Option.some.injEq] at hstep
      cases hstep
      have hr : r.1.received = s.w.received := by
        unfold WriteFrom at hw
        split at hw
        · cases hw; rfl
        · split at hw
          · cases hw; rfl
          · split at hw
            · cases hw
            · split at hw <;> cases hw <;> rfl
      exact absurd hr hne
  | close =>
    simp only [step] at hstep
    cases hstep
    exact absurd rfl hne
  | setDeadline now t =>
    simp only [step, SetDeadline] at hstep
    cases hd : s.w.conn.deadline <;> simp [hd] at hstep <;> cases hstep <;>
      exact absurd rfl hne
  | deadlineExpired =>
    simp only [step] at hstep
    cases hd : s.w.conn.deadline <;> simp [hd] at hstep
    cases hstep
    exact absurd rfl hne

/-- C12: a `ReceiveTo` call on a Connecting adapter does not invoke the
handler: the datagram is buffered (the call returns nil) or rejected with "not
connected" (nothing changes). The handler is invoked by `ReceiveTo` only once
`checkState` has seen Connected; in every interleaving of a fresh adapter the
handler has seen nothing while the connect task is still inside `Connect`; and
the only events that invoke the handler are turns of the drain, made by the
connect task after it set Connected, and `ReceiveTo` calls on a Connected
adapter. -/
theorem no_delivery_while_connecting (h : UDPConnHandler)
    (ipAddrATON : String → Except String Nat) (w : World) (data : List Nat)
    (addr : Option UDPAddr) (hs : w.conn.state = udpConnState.udpConnecting) :
    (ReceiveTo h w data addr).1.received = w.received ∧
    (((ReceiveTo h w data addr).2 = none ∧
        (ReceiveTo h w data addr).1.conn.pending
          = w.conn.pending ++ [{ data := data, addr := addr }]) ∨
      ReceiveTo h w data addr = (w, some "not connected")) ∧
    (∀ conn : udpConn, checkState conn = none ↔ conn.state = udpConnState.udpConnected) ∧
    (∀ (pcb localIP localPort : Nat) (localAddr : Option UDPAddr) (reg : Registry)
        (evs : List Event) (s : Sys),
      run h ipAddrATON (initSys pcb localIP localPort localAddr reg) evs = some s →
      s.task = ConnectPC.running →
      s.w.conn.state ≠ udpConnState.udpConnected ∧ s.w.received = []) ∧
    (∀ (s s1 : Sys) (e : Event), step h ipAddrATON s e = some s1 →
      s1.w.received ≠ s.w.received →
      (e = Event.drain ∧ s.task = ConnectPC.draining) ∨
      (∃ d a, e = Event.receiveTo d a ∧ s.w.conn.state = udpConnState.udpConnected)) := by
  refine ⟨?_, ?_, checkState_eq_none, ?_, step_delivers_only h ipAddrATON⟩
  · by_cases hroom : w.conn.pending.length < pendingCap
    · rw [ReceiveTo_connecting_room h w data addr hs hroom]
    · rw [ReceiveTo_connecting_full h w data addr hs (by omega)]
  · by_cases hroom : w.conn.pending.length < pendingCap
    · rw [ReceiveTo_connecting_room h w data addr hs hroom]
      exact Or.inl ⟨rfl, rfl⟩
    · exact Or.inr (ReceiveTo_connecting_full h w data addr hs (by omega))
  · intro pcb localIP localPort localAddr reg evs s hrun ht
    exact (run_before_transition h ipAddrATON evs _ s hrun ht).2
      (by simp [initSys, newUDPConn]) rfl

/-- C12 at a fresh sample adapter: the call leaves the handler's log empty. -/
theorem no_delivery_while_connecting_witness :
    sampleWorld.conn.state = udpConnState.udpConnecting ∧
    (ReceiveTo acceptAll sampleWorld [1] (some sampleRemote)).1.received = sampleWorld.received :=
  ⟨rfl, (no_delivery_while_connecting acceptAll atonOk sampleWorld [1] (some sampleRemote)
    rfl).1⟩


/-! ## The write path and per-packet failures -/

/-- C13: in every state and for every address (nil included), `WriteFrom` with
zero-length data returns zero bytes and nil and changes nothing: no send is
made and the state is as before. -/
theorem WriteFrom_empty_is_noop (ipAddrATON : String → Except String Nat) (w : World)
    (addr : Option UDPAddr) :
    WriteFrom ipAddrATON w [] addr = some (w, 0, none) := by
  simp [WriteFrom]

theorem WriteFrom_connecting (ipAddrATON : String → Except String Nat) (w : World)
    (data : List Nat) (addr : Option UDPAddr) (hd : data ≠ [])
    (hs : w.conn.state = udpConnState.udpConnecting) :
    WriteFrom ipAddrATON w data addr = some (w, 0, some "not connected") := by
  have hlen : ¬ data.length = 0 := by simpa using hd
  simp [WriteFrom, hlen, checkState, hs]

theorem WriteFrom_connected (ipAddrATON : String → Except String Nat) (w : World)
    (data : List Nat) (a : UDPAddr) (hd : data ≠ [])
    (hs : w.conn.state = udpConnState.udpConnected) :
    WriteFrom ipAddrATON w data (some a) =
      match ipAddrATON a.IP with
      | Except.error err => some (w, 0, some err)
      | Except.ok cremoteIP =>
        some ({ w with sent := w.sent ++
                  [{ pcb := w.conn.pcb, data := data, len := data.length % 65536,
                     localIP := w.conn.localIP, localPort := w.conn.localPort,
                     remoteIP := cremoteIP, remotePort := a.Port % 65536 }] },
              data.length, none) := by
  have hlen : ¬ data.length = 0 := by simpa using hd
  simp [WriteFrom, hlen, checkState, hs]

/-- `WriteFrom` never touches the adapter, the registry or the handler's log,
and adds at most one send. -/
theorem WriteFrom_frame (ipAddrATON : String → Except String Nat) (w : World)
    (data : List Nat) (addr : Option UDPAddr) (r : World × Nat × GoError)
    (hr : WriteFrom ipAddrATON w data addr = some r) :
    r.1.conn = w.conn ∧ r.1.udpConns = w.udpConns ∧ r.1.received = w.received ∧
    r.1.timers = w.timers ∧
    (r.1.sent = w.sent ∨ ∃ call, r.1.sent = w.sent ++ [call]) := by
  unfold WriteFrom at hr
  split at hr
  · cases hr; exact ⟨rfl, rfl, rfl, rfl, Or.inl rfl⟩
  · split at hr
    · cases hr; exact ⟨rfl, rfl, rfl, rfl, Or.inl rfl⟩
    · split at hr
      · cases hr
      · split at hr <;> cases hr
        · exact ⟨rfl, rfl, rfl, rfl, Or.inl rfl⟩
        · exact ⟨rfl, rfl, rfl, rfl, Or.inr ⟨_, rfl⟩⟩

/-- C14: for non-empty data and a non-nil address, `WriteFrom` makes a send
exactly when the adapter is Connected and the remote address converts; it is
then one `udp_sendto` with the adapter's `pcb`, `localIP` and `localPort`, the
converted remote address and the port as cast to `u16_t` (the given port, for
every port below 65536), and the call returns the length of the data and nil.
Otherwise nothing is sent and the call returns zero bytes with "not connected"
when Connecting, "connection closed" when Closed, or the conversion error. -/
theorem WriteFrom_nonempty_cases (ipAddrATON : String → Except String Nat) (w : World)
    (data : List Nat) (a : UDPAddr) (hd : data ≠ []) :
    (∀ cremoteIP : Nat, w.conn.state = udpConnState.udpConnected →
      ipAddrATON a.IP = Except.ok cremoteIP →
      WriteFrom ipAddrATON w data (some a) =
        some ({ w with sent := w.sent ++
                  [{ pcb := w.conn.pcb, data := data, len := data.length % 65536,
                     localIP := w.conn.localIP, localPort := w.conn.localPort,
                     remoteIP := cremoteIP, remotePort := a.Port % 65536 }] },
              data.length, none)) ∧
    (∀ cremoteIP : Nat, w.conn.state = udpConnState.udpConnected →
      ipAddrATON a.IP = Except.ok cremoteIP → a.Port < 65536 →
      WriteFrom ipAddrATON w data (some a) =
        some ({ w with sent := w.sent ++
                  [{ pcb := w.conn.pcb, data := data, len := data.length % 65536,
                     localIP := w.conn.localIP, localPort := w.conn.localPort,
                     remoteIP := cremoteIP, remotePort := a.Port }] },
              data.length, none)) ∧
    (∀ err : String, w.conn.state = udpConnState.udpConnected →
      ipAddrATON a.IP = Except.error err →
      WriteFrom ipAddrATON w data (some a) = some (w, 0, some err)) ∧
    (w.conn.state = udpConnState.udpConnecting →
      WriteFrom ipAddrATON w data (some a) = some (w, 0, some "not connected")) ∧
    (w.conn.state = udpConnState.udpClosed →
      WriteFrom ipAddrATON w data (some a) = some (w, 0, some "connection closed")) ∧
    ((∃ r, WriteFrom ipAddrATON w data (some a) = some r ∧ r.1.sent ≠ w.sent) ↔
      (w.conn.state = udpConnState.udpConnected ∧
        ∃ cremoteIP, ipAddrATON a.IP = Except.ok cremoteIP)) := by
  have hok : ∀ cremoteIP : Nat, w.conn.state = udpConnState.udpConnected →
      ipAddrATON a.IP = Except.ok cremoteIP →
      WriteFrom ipAddrATON w data (some a) =
        some ({ w with sent := w.sent ++
                  [{ pcb := w.conn.pcb, data := data, len := data.length % 65536,
                     localIP := w.conn.localIP, localPort := w.conn.localPort,
                     remoteIP := cremoteIP, remotePort := a.Port % 65536 }] },
              data.length, none) := by
    intro ip hs hip
    rw [WriteFrom_connected ipAddrATON w data a hd hs, hip]
  have herr : ∀ err : String, w.conn.state = udpConnState.udpConnected →
      ipAddrATON a.IP = Except.error err →
      WriteFrom ipAddrATON w data (some a) = some (w, 0, some err) := by
    intro err hs hip
    rw [WriteFrom_connected ipAddrATON w data a hd hs, hip]
  have hclosed : w.conn.state = udpConnState.udpClosed →
      WriteFrom ipAddrATON w data (some a) = some (w, 0, some "connection closed") := by
    intro hs
    rw [WriteFrom_closed ipAddrATON w data (some a) hs, if_neg hd]
  refine ⟨hok, ?_, herr, WriteFrom_connecting ipAddrATON w data (some a) hd, hclosed, ?_⟩
  · intro ip hs hip hport
    rw [hok ip hs hip, Nat.mod_eq_of_lt hport]
  · constructor
    · rintro ⟨r, hr, hne⟩
      cases hs : w.conn.state with
      | udpConnecting =>
        rw [WriteFrom_connecting ipAddrATON w data (some a) hd hs] at hr
        cases hr; exact absurd rfl hne
      | udpClosed =>
        rw [hclosed hs] at hr
        cases hr; exact absurd rfl hne
      | udpConnected =>
        cases hip : ipAddrATON a.IP with
        | error err =>
          rw [herr err hs hip] at hr
          cases hr; exact absurd rfl hne
        | ok ip => exact ⟨rfl, ip, rfl⟩
    · rintro ⟨hs, ip, hip⟩
      refine ⟨_, hok ip hs hip, ?_⟩
      simp

/-- C14 at a connected sample adapter: one byte is sent to the sample remote
endpoint. -/
theorem WriteFrom_nonempty_cases_witness :
    ([9] : List Nat) ≠ [] ∧
    connectedWorld.conn.state = udpConnState.udpConnected ∧
    atonOk sampleRemote.IP = Except.ok 7 ∧
    WriteFrom atonOk connectedWorld [9] (some sampleRemote) =
      some ({ connectedWorld with sent :=
                [{ pcb := 1, data := [9], len := 1, localIP := 2, localPort := 5353,
                   remoteIP := 7, remotePort := 53 }] }, 1, none) :=
  ⟨by decide, rfl, rfl,
    (WriteFrom_nonempty_cases atonOk connectedWorld [9] sampleRemote (by decide)).2.1 7 rfl rfl
      (by decide)⟩

/-- C15: on a Connected adapter `ReceiveTo` invokes the handler once, with the
same data and address, and returns nil when the handler does and the error
"write proxy failed: " followed by the handler's error otherwise. In every
case `ReceiveTo` leaves the adapter's state, the registry and the deadline as
they are, and so does every `WriteFrom` call; a `ReceiveTo` rejected with "not
connected" or "connection closed" changes nothing at all. -/
theorem packet_failure_keeps_adapter (h : UDPConnHandler)
    (ipAddrATON : String → Except String Nat) (w : World) (data : List Nat)
    (addr : Option UDPAddr) :
    (w.conn.state = udpConnState.udpConnected →
      (ReceiveTo h w data addr).1 =
        { w with received := w.received ++ [{ data := data, addr := addr }] } ∧
      (h.ReceiveTo w.received { data := data, addr := addr } = none →
        (ReceiveTo h w data addr).2 = none) ∧
      (∀ err, h.ReceiveTo w.received { data := data, addr := addr } = some err →
        (ReceiveTo h w data addr).2 = some ("write proxy failed: " ++ err))) ∧
    ((ReceiveTo h w data addr).1.conn.state = w.conn.state ∧
      (ReceiveTo h w data addr).1.udpConns = w.udpConns ∧
      (ReceiveTo h w data addr).1.conn.deadline = w.conn.deadline) ∧
    (w.conn.state ≠ udpConnState.udpConnected → (ReceiveTo h w data addr).2 ≠ none →
      (ReceiveTo h w data addr).1 = w ∧
      ((ReceiveTo h w data addr).2 = some "not connected" ∨
        (ReceiveTo h w data addr).2 = some "connection closed")) ∧
    (∀ r, WriteFrom ipAddrATON w data addr = some r →
      r.1.conn.state = w.conn.state ∧ r.1.udpConns = w.udpConns ∧
      r.1.conn.deadline = w.conn.deadline) := by
  refine ⟨?_, ?_, ?_, ?_⟩
  · intro hs
    rw [ReceiveTo_connected h w data addr hs]
    refine ⟨rfl, ?_, ?_⟩
    · intro hr; simp [hr]
    · intro err hr; simp [hr]
  · cases hs : w.conn.state with
    | udpConnected => rw [ReceiveTo_connected h w data addr hs]; exact ⟨hs.symm ▸ rfl, rfl, rfl⟩
    | udpClosed => rw [ReceiveTo_closed h w data addr hs]; exact ⟨hs.symm ▸ rfl, rfl, rfl⟩
    | udpConnecting =>
      by_cases hroom : w.conn.pending.length < pendingCap
      · rw [ReceiveTo_connecting_room h w data addr hs hroom]; exact ⟨hs.symm ▸ rfl, rfl, rfl⟩
      · rw [ReceiveTo_connecting_full h w data addr hs (by omega)]
        exact ⟨hs.symm ▸ rfl, rfl, rfl⟩
  · intro hnc herr
    cases hs : w.conn.state with
    | udpConnected => exact absurd hs hnc
    | udpClosed =>
      rw [ReceiveTo_closed h w data addr hs]; exact ⟨rfl, Or.inr rfl⟩
    | udpConnecting =>
      by_cases hroom : w.conn.pending.length < pendingCap
      · rw [ReceiveTo_connecting_room h w data addr hs hroom] at herr
        exact absurd rfl herr
      · rw [ReceiveTo_connecting_full h w data addr hs (by omega)]
        exact ⟨rfl, Or.inl rfl⟩
  · intro r hr
    obtain ⟨hc, hreg, _, _, _⟩ := WriteFrom_frame ipAddrATON w data addr r hr
    rw [hc]; exact ⟨rfl, hreg, rfl⟩

/-- C15 at a connected sample adapter and a handler that rejects the empty
payload: the call fails and the adapter stays Connected. -/
theorem packet_failure_keeps_adapter_witness :
    connectedWorld.conn.state = udpConnState.udpConnected ∧
    rejectEmpty.ReceiveTo connectedWorld.received { data := [], addr := none } = some "empty" ∧
    (ReceiveTo rejectEmpty connectedWorld [] none).2 = some ("write proxy failed: " ++ "empty") ∧
    (ReceiveTo rejectEmpty connectedWorld [] none).1.conn.state = udpConnState.udpConnected :=
  ⟨rfl, rfl,
    ((packet_failure_keeps_adapter rejectEmpty atonOk connectedWorld [] none).1 rfl).2.2
      "empty" rfl,
    (packet_failure_keeps_adapter rejectEmpty atonOk connectedWorld [] none).2.1.1⟩


/-! ## The deadline timer -/

theorem callDeadline_eq (w : World) (c : DeadlineCall) :
    callDeadline w c = SetDeadline w c.now c.t := by
  cases hm : c.method <;> simp [callDeadline, hm, SetReadDeadline, SetWriteDeadline]

theorem SetDeadline_first (w : World) (now t : Int) (hd : w.conn.deadline = none) :
    SetDeadline w now t =
      ({ w with conn := { w.conn with deadline := some { d := t - now } },
                timers := w.timers + 1 }, none) := by
  simp [SetDeadline, hd]

theorem SetDeadline_again (w : World) (now t : Int) (timer : Timer)
    (hd : w.conn.deadline = some timer) :
    SetDeadline w now t =
      ({ w with conn := { w.conn with deadline := some { d := t - now } } }, none) := by
  simp [SetDeadline, hd]

theorem callDeadlines_spec (cs : List DeadlineCall) :
    ∀ w : World,
      (callDeadlines w cs).2 = List.replicate cs.length none ∧
      (callDeadlines w cs).1.timers =
        (if cs = [] then w.timers
         else if w.conn.deadline = none then w.timers + 1 else w.timers) ∧
      (∀ c, cs.getLast? = some c →
        (callDeadlines w cs).1.conn.deadline = some { d := c.t - c.now }) := by
  induction cs with
  | nil => intro w; simp [callDeadlines]
  | cons c cs ih =>
    intro w
    obtain ⟨hres, htim, hlast⟩ := ih (callDeadline w c).1
    have hd1 : ∃ timer, (callDeadline w c).1.conn.deadline = some timer ∧
        timer = { d := c.t - c.now } ∧ (callDeadline w c).2 = none ∧
        (callDeadline w c).1.timers
          = (if w.conn.deadline = none then w.timers + 1 else w.timers) := by
      rw [callDeadline_eq]
      cases hd : w.conn.deadline with
      | none => rw [SetDeadline_first w _ _ hd]; exact ⟨_, rfl, rfl, rfl, by simp⟩
      | some timer => rw [SetDeadline_again w _ _ timer hd]; exact ⟨_, rfl, rfl, rfl, by simp⟩
    obtain ⟨timer, hdl, htimer, hnil, hcount⟩ := hd1
    refine ⟨?_, ?_, ?_⟩
    · simp only [callDeadlines, hres, hnil, List.length_cons, List.replicate_succ]
    · simp only [callDeadlines, htim, hdl, hcount]
      by_cases hcs : cs = [] <;> simp [hcs]
    · intro c1 hc1
      simp only [callDeadlines]
      cases cs with
      | nil =>
        simp only [List.getLast?_singleton, Option.some.injEq] at hc1
        subst hc1
        simp only [callDeadlines]
        rw [hdl, htimer]
      | cons c2 cs2 =>
        apply hlast
        rw [List.getLast?_cons_cons] at hc1
        exact hc1

/-- Along every run the number of timers created matches the presence of a
deadline timer: none before the first deadline call, one ever after. -/
theorem step_timers (h : UDPConnHandler) (ipAddrATON : String → Except String Nat)
    (s s1 : Sys) (e : Event) (hstep : step h ipAddrATON s e = some s1)
    (hinv : s.w.timers = if s.w.conn.deadline = none then 0 else 1) :
    s1.w.timers = if s1.w.conn.deadline = none then 0 else 1 := by
  cases e with
  | connectOk =>
    simp only [step] at hstep
    split at hstep <;> cases hstep
    exact hinv
  | connectErr =>
    simp only [step] at hstep
    split at hstep <;> cases hstep
    exact hinv
  | drain =>
    simp only [step, drainOnce] at hstep
    split at hstep
    · cases hp : s.w.conn.pending with
      | nil => simp [hp] at hstep; cases hstep; exact hinv
      | cons p q =>
        cases hr : h.ReceiveTo s.w.received p <;> simp [hp, hr] at hstep <;> cases hstep <;>
          exact hinv
    · cases hstep
  | receiveTo data addr =>
    simp only [step] at hstep
    cases hstep
    cases hst : s.w.conn.state with
    | udpConnected => rw [ReceiveTo_connected h s.w data addr hst]; exact hinv
    | udpClosed => rw [ReceiveTo_closed h s.w data addr hst]; exact hinv
    | udpConnecting =>
      by_cases hroom : s.w.conn.pending.length < pendingCap
      · rw [ReceiveTo_connecting_room h s.w data addr hst hroom]; exact hinv
      · rw [ReceiveTo_connecting_full h s.w data addr hst (by omega)]; exact hinv
  | writeFrom data addr =>
    simp only [step] at hstep
    cases hw : WriteFrom ipAddrATON s.w data addr with
    | none => simp [hw] at hstep
    | some r =>
      simp only [hw, Option.some.injEq] at hstep
      cases hstep
      obtain ⟨hc, _, _, ht, _⟩ := WriteFrom_frame ipAddrATON s.w data addr r hw
      show r.1.timers = if r.1.conn.deadline = none then 0 else 1
      rw [ht, hc]; exact hinv
  | close =>
    simp only [step] at hstep
    cases hstep
    exact hinv
  | setDeadline now t =>
    simp only [step] at hstep
    cases hstep
    cases hd : s.w.conn.deadline with
    | none =>
      rw [SetDeadline_first s.w now t hd]
      simp [hd] at hinv
      simp [hinv]
    | some timer =>
      rw [SetDeadline_again s.w now t timer hd]
      simp [hd] at hinv
      simp [hinv]
  | deadlineExpired =>
    simp only [step] at hstep
    cases hd : s.w.conn.deadline <;> simp [hd] at hstep
    cases hstep
    exact hinv

theorem run_timers (h : UDPConnHandler) (ipAddrATON : String → Except String Nat)
    (evs : List Event) :
    ∀ s s1 : Sys, run h ipAddrATON s evs = some s1 →
      (s.w.timers = if s.w.conn.deadline = none then 0 else 1) →
      s1.w.timers = if s1.w.conn.deadline = none then 0 else 1 := by
  induction evs with
  | nil =>
    intro s s1 hrun hinv
    simp only [run, Option.some.injEq] at hrun
    subst hrun; exact hinv
  | cons e es ih =>
    intro s s1 hrun hinv
    simp only [run] at hrun
    cases hst : step h ipAddrATON s e with
    | none => simp [hst] at hrun
    | some s2 =>
      simp only [hst] at hrun
      exact ih s2 s1 hrun (step_timers h ipAddrATON s s2 e hst hinv)

/-- C17: for every sequence of calls of `SetDeadline`, `SetReadDeadline` and
`SetWriteDeadline` on a fresh adapter, every call returns nil and at most one
timer is ever created: the first call creates it, armed with the duration until
the deadline, and each later call re-arms the timer that exists without
creating another; the three methods are the same operation; the timer's
callback is `Close`; and in every interleaving with the other events of the
adapter the number of timers created stays at most one. -/
theorem single_deadline_timer (h : UDPConnHandler) (ipAddrATON : String → Except String Nat)
    (pcb localIP localPort : Nat) (localAddr : Option UDPAddr) (reg : Registry)
    (cs : List DeadlineCall) :
    (callDeadlines (initSys pcb localIP localPort localAddr reg).w cs).2
      = List.replicate cs.length none ∧
    (callDeadlines (initSys pcb localIP localPort localAddr reg).w cs).1.timers ≤ 1 ∧
    (cs ≠ [] →
      (callDeadlines (initSys pcb localIP localPort localAddr reg).w cs).1.timers = 1) ∧
    (∀ c, cs.getLast? = some c →
      (callDeadlines (initSys pcb localIP localPort localAddr reg).w cs).1.conn.deadline
        = some { d := c.t - c.now }) ∧
    (∀ (w : World) (c : DeadlineCall), callDeadline w c = SetDeadline w c.now c.t) ∧
    (∀ (w : World) (now t : Int), w.conn.deadline = none →
      SetDeadline w now t =
        ({ w with conn := { w.conn with deadline := some { d := t - now } },
                  timers := w.timers + 1 }, none)) ∧
    (∀ (w : World) (now t : Int) (timer : Timer), w.conn.deadline = some timer →
      SetDeadline w now t =
        ({ w with conn := { w.conn with deadline := some { d := t - now } } }, none)) ∧
    (∀ (s : Sys) (timer : Timer), s.w.conn.deadline = some timer →
      step h ipAddrATON s Event.deadlineExpired = some { s with w := (Close s.w).1 }) ∧
    (∀ (evs : List Event) (s : Sys),
      run h ipAddrATON (initSys pcb localIP localPort localAddr reg) evs = some s →
      s.w.timers ≤ 1) := by
  obtain ⟨hres, htim, hlast⟩ :=
    callDeadlines_spec cs (initSys pcb localIP localPort localAddr reg).w
  have hinit : (initSys pcb localIP localPort localAddr reg).w.conn.deadline = none := rfl
  have htim0 : (initSys pcb localIP localPort localAddr reg).w.timers = 0 := rfl
  rw [hinit, htim0] at htim
  refine ⟨hres, ?_, ?_, hlast, callDeadline_eq, SetDeadline_first, SetDeadline_again, ?_, ?_⟩
  · rw [htim]; by_cases hcs : cs = [] <;> simp [hcs]
  · intro hcs; rw [htim]; simp [hcs]
  · intro s timer hd
    simp [step, hd]
  · intro evs s hrun
    have := run_timers h ipAddrATON evs _ s hrun (by simp [initSys, newUDPConn])
    rw [this]
    split <;> omega

/-- C17 on three calls through the three methods: one timer, armed last with
the duration of the third call. -/
theorem single_deadline_timer_witness :
    ([⟨DeadlineMethod.SetDeadline, 0, 100⟩, ⟨DeadlineMethod.SetReadDeadline, 10, 200⟩,
        ⟨DeadlineMethod.SetWriteDeadline, 20, 50⟩] : List DeadlineCall) ≠ [] ∧
    (callDeadlines (initSys 1 2 5353 (some sampleLocal) []).w
        [⟨DeadlineMethod.SetDeadline, 0, 100⟩, ⟨DeadlineMethod.SetReadDeadline, 10, 200⟩,
          ⟨DeadlineMethod.SetWriteDeadline, 20, 50⟩]).1.timers = 1 :=
  ⟨by decide,
    (single_deadline_timer acceptAll atonOk 1 2 5353 (some sampleLocal) []
      [⟨DeadlineMethod.SetDeadline, 0, 100⟩, ⟨DeadlineMethod.SetReadDeadline, 10, 200⟩,
        ⟨DeadlineMethod.SetWriteDeadline, 20, 50⟩]).2.2.1 (by decide)⟩


/-! ## The buffer pool -/

theorem SyncPool.Get_empty (p : SyncPool) (pick : Nat) (hp : p.items = []) :
    p.Get pick = (p.New (), p) := by
  simp [SyncPool.Get, hp]

theorem SyncPool.Get_nonempty (p : SyncPool) (pick : Nat) (hp : p.items ≠ []) :
    ∃ b, p.items[pick % p.items.length]? = some b ∧ b ∈ p.items ∧
      p.Get pick = (b, { p with items := p.items.eraseIdx (pick % p.items.length) }) := by
  have hpos : 0 < p.items.length := List.length_pos.mpr hp
  have hlt : pick % p.items.length < p.items.length := Nat.mod_lt _ hpos
  refine ⟨p.items[pick % p.items.length], List.getElem?_eq_getElem hlt,
    List.getElem_mem hlt, ?_⟩
  simp [SyncPool.Get, List.getElem?_eq_getElem hlt]

theorem PoolInv_init : PoolInv InitLocalPool :=
  ⟨by simp [InitLocalPool], rfl⟩

theorem localPool.Put_inv (p : localPool) (b : List Nat) (hinv : PoolInv p) :
    PoolInv (p.Put b).1 := by
  unfold localPool.Put
  split
  · rename_i hb
    refine ⟨?_, hinv.2⟩
    intro b1 hb1
    simp only [SyncPool.Put, List.mem_cons] at hb1
    rcases hb1 with rfl | hb1
    · exact hb
    · exact hinv.1 b1 hb1
  · exact hinv

theorem localPool.Get_large (p : localPool) (pick : Nat) (size : Int)
    (hsize : (bufSize : Int) < size) :
    p.Get pick size = (List.replicate size.toNat 0, p) := by
  have : ¬ size ≤ (bufSize : Int) := by omega
  simp [localPool.Get, this]

theorem localPool.Get_small_empty (p : localPool) (pick : Nat) (size : Int)
    (hsize : size ≤ (bufSize : Int)) (hp : p.pool.items = []) :
    p.Get pick size = (p.pool.New (), p) := by
  simp [localPool.Get, hsize, SyncPool.Get_empty p.pool pick hp]

theorem localPool.Get_small_nonempty (p : localPool) (pick : Nat) (size : Int)
    (hsize : size ≤ (bufSize : Int)) (hp : p.pool.items ≠ []) :
    ∃ b, b ∈ p.pool.items ∧
      p.Get pick size =
        (b, { pool := { p.pool with
                items := p.pool.items.eraseIdx (pick % p.pool.items.length) } }) := by
  obtain ⟨b, _, hmem, hget⟩ := SyncPool.Get_nonempty p.pool pick hp
  exact ⟨b, hmem, by simp [localPool.Get, hsize, hget]⟩

theorem localPool.Get_inv (p : localPool) (pick : Nat) (size : Int) (hinv : PoolInv p) :
    PoolInv (p.Get pick size).2 ∧
    (∀ b ∈ (p.Get pick size).2.pool.items, b ∈ p.pool.items) := by
  by_cases hsize : size ≤ (bufSize : Int)
  · by_cases hp : p.pool.items = []
    · rw [localPool.Get_small_empty p pick size hsize hp]
      exact ⟨hinv, fun b hb => hb⟩
    · obtain ⟨b, _, hget⟩ := localPool.Get_small_nonempty p pick size hsize hp
      rw [hget]
      have hsub : ∀ b1 ∈ p.pool.items.eraseIdx (pick % p.pool.items.length),
          b1 ∈ p.pool.items :=
        fun b1 hb1 => (List.eraseIdx_sublist _ _).subset hb1
      exact ⟨⟨fun b1 hb1 => hinv.1 b1 (hsub b1 hb1), hinv.2⟩, hsub⟩
  · rw [localPool.Get_large p pick size (by omega)]
    exact ⟨hinv, fun b hb => hb⟩

theorem runPool_inv (ops : List PoolOp) :
    ∀ p : localPool, PoolInv p →
      PoolInv (runPool p ops) ∧
      (∀ b ∈ (runPool p ops).pool.items, b ∈ p.pool.items ∨ b ∈ putArgs ops) := by
  induction ops with
  | nil => intro p hinv; exact ⟨hinv, fun b hb => Or.inl hb⟩
  | cons op ops ih =>
    intro p hinv
    cases op with
    | get pick size =>
      obtain ⟨hinv1, hsub⟩ := localPool.Get_inv p pick size hinv
      obtain ⟨hinv2, hmem⟩ := ih _ hinv1
      refine ⟨hinv2, fun b hb => ?_⟩
      rcases hmem b hb with h1 | h1
      · exact Or.inl (hsub b h1)
      · exact Or.inr h1
    | put b0 =>
      obtain ⟨hinv2, hmem⟩ := ih _ (localPool.Put_inv p b0 hinv)
      refine ⟨hinv2, fun b hb => ?_⟩
      rcases hmem b hb with h1 | h1
      · unfold localPool.Put at h1
        split at h1
        · simp only [SyncPool.Put, List.mem_cons] at h1
          rcases h1 with rfl | h1
          · exact Or.inr (by simp [putArgs])
          · exact Or.inl h1
        · exact Or.inl h1
      · exact Or.inr (by simp [putArgs, h1])

theorem localPool.Get_length (p : localPool) (pick : Nat) (size : Int) (hinv : PoolInv p) :
    size ≤ ((p.Get pick size).1.length : Int) := by
  by_cases hsize : size ≤ (bufSize : Int)
  · by_cases hp : p.pool.items = []
    · rw [localPool.Get_small_empty p pick size hsize hp, hinv.2]
      simpa using hsize
    · obtain ⟨b, hmem, hget⟩ := localPool.Get_small_nonempty p pick size hsize hp
      rw [hget]
      have := hinv.1 b hmem
      show size ≤ (b.length : Int)
      omega
  · rw [localPool.Get_large p pick size (by omega)]
    simp only [List.length_replicate]
    omega


theorem bigBuf_length : bigBuf.length = 4096 := by
  unfold bigBuf
  exact List.length_replicate _ _

theorem bufSize_le_bigBuf : bufSize ≤ bigBuf.length := by
  rw [bigBuf_length]; decide

theorem localPool.Put_keeps (p : localPool) (b : List Nat) (hb : bufSize ≤ b.length) :
    (p.Put b).1.pool.items = b :: p.pool.items := by
  simp [localPool.Put, hb, SyncPool.Put]

theorem runPool_put_bigBuf :
    (runPool InitLocalPool [PoolOp.put bigBuf]).pool.items = [bigBuf] := by
  have hrun : runPool InitLocalPool [PoolOp.put bigBuf] = (InitLocalPool.Put bigBuf).1 := by
    simp only [runPool]
  rw [hrun, localPool.Put_keeps InitLocalPool bigBuf bufSize_le_bigBuf]
  rfl

/-- C16: after every sequence of `Get` and `Put` calls on the pool made by
`InitLocalPool` (`Put` with buffers of any length), `Get(size)` returns a buffer
of length at least `size`, for every size; every buffer held in the pool has
length at least `bufSize`. -/
theorem Get_returns_at_least_size (ops : List PoolOp) (pick : Nat) (size : Int) :
    size ≤ (((runPool InitLocalPool ops).Get pick size).1.length : Int) ∧
    (∀ b ∈ (runPool InitLocalPool ops).pool.items, bufSize ≤ b.length) ∧
    bufSize = 2048 :=
  ⟨localPool.Get_length _ pick size (runPool_inv ops InitLocalPool PoolInv_init).1,
    (runPool_inv ops InitLocalPool PoolInv_init).1.1, rfl⟩

/-- C18: `Put(b)` returns nil; `b` is added to the pool when its length is at
least `bufSize` (2048) and only then; a shorter buffer leaves the pool as it
is. -/
theorem Put_policy (p : localPool) (b : List Nat) :
    (p.Put b).2 = none ∧
    (bufSize ≤ b.length → (p.Put b).1.pool.items = b :: p.pool.items) ∧
    (b.length < bufSize → (p.Put b).1 = p) ∧
    ((p.Put b).1.pool.items = b :: p.pool.items ↔ bufSize ≤ b.length) ∧
    bufSize = 2048 := by
  have hge : bufSize ≤ b.length → (p.Put b).1.pool.items = b :: p.pool.items := by
    exact localPool.Put_keeps p b
  have hlt : b.length < bufSize → (p.Put b).1 = p := by
    intro hb
    have : ¬ bufSize ≤ b.length := by omega
    simp [localPool.Put, this]
  refine ⟨?_, hge, hlt, ⟨?_, hge⟩, rfl⟩
  · unfold localPool.Put; split <;> rfl
  · intro hitems
    by_contra hb
    rw [hlt (by omega)] at hitems
    have := congrArg List.length hitems
    simp at this

/-- C18 at a buffer of 4096 bytes, which is kept, and one of a single byte,
which is not. -/
theorem Put_policy_witness :
    (InitLocalPool.Put bigBuf).1.pool.items = bigBuf :: InitLocalPool.pool.items ∧
    (InitLocalPool.Put [1]).1 = InitLocalPool :=
  ⟨(Put_policy InitLocalPool bigBuf).2.1 bufSize_le_bigBuf,
    (Put_policy InitLocalPool [1]).2.2.1 (by simp [bufSize])⟩

/-- C19: for `size` above `bufSize` (2048), `Get(size)` returns a fresh buffer
of exactly `size` bytes and leaves the pool as it is, whatever the pool holds.
For `size` up to `bufSize` the buffer comes from the pool: after any sequence of
calls on the pool of `InitLocalPool`, an empty pool yields a fresh buffer of
exactly `bufSize` bytes, and a pool that holds buffers yields one of them, a
buffer released earlier by `Put`, which the pool then no longer holds; its
length is at least `bufSize` and need not be `size`. -/
theorem Get_policy (ops : List PoolOp) (p : localPool) (pick : Nat) (size : Int) :
    ((bufSize : Int) < size →
      p.Get pick size = (List.replicate size.toNat 0, p) ∧
      ((p.Get pick size).1.length : Int) = size) ∧
    (size ≤ (bufSize : Int) → (runPool InitLocalPool ops).pool.items = [] →
      (runPool InitLocalPool ops).Get pick size
        = (List.replicate bufSize 0, runPool InitLocalPool ops) ∧
      ((runPool InitLocalPool ops).Get pick size).1.length = bufSize) ∧
    (size ≤ (bufSize : Int) → (runPool InitLocalPool ops).pool.items ≠ [] →
      ((runPool InitLocalPool ops).Get pick size).1 ∈ (runPool InitLocalPool ops).pool.items ∧
      ((runPool InitLocalPool ops).Get pick size).1 ∈ putArgs ops ∧
      bufSize ≤ ((runPool InitLocalPool ops).Get pick size).1.length ∧
      ((runPool InitLocalPool ops).Get pick size).2.pool.items
        = (runPool InitLocalPool ops).pool.items.eraseIdx
            (pick % (runPool InitLocalPool ops).pool.items.length)) ∧
    bufSize = 2048 := by
  obtain ⟨hinv, hmem⟩ := runPool_inv ops InitLocalPool PoolInv_init
  refine ⟨?_, ?_, ?_, rfl⟩
  · intro hsize
    rw [localPool.Get_large p pick size hsize]
    refine ⟨rfl, ?_⟩
    simp only [List.length_replicate]
    have : (0 : Int) ≤ (bufSize : Int) := Int.ofNat_nonneg _
    omega
  · intro hsize hp
    rw [localPool.Get_small_empty _ pick size hsize hp, hinv.2]
    exact ⟨rfl, by simp⟩
  · intro hsize hp
    obtain ⟨b, hb, hget⟩ := localPool.Get_small_nonempty _ pick size hsize hp
    rw [hget]
    refine ⟨hb, ?_, hinv.1 b hb, rfl⟩
    rcases hmem b hb with h1 | h1
    · simp [InitLocalPool] at h1
    · exact h1

/-- C19 at sample calls: a request of 3000 bytes is served fresh although the
pool holds a buffer of 4096 bytes, and a request of 100 bytes is served with
that buffer. -/
theorem Get_policy_witness :
    (((InitLocalPool.Put bigBuf).1.Get 0 3000).1.length : Int) = 3000 ∧
    (runPool InitLocalPool [PoolOp.put bigBuf]).pool.items ≠ [] ∧
    ((runPool InitLocalPool [PoolOp.put bigBuf]).Get 0 100).1 ∈ putArgs [PoolOp.put bigBuf] :=
  ⟨((Get_policy [] (InitLocalPool.Put bigBuf).1 0 3000).1 (by simp [bufSize])).2,
    by rw [runPool_put_bigBuf]; simp,
    ((Get_policy [PoolOp.put bigBuf] InitLocalPool 0 100).2.2.1 (by simp [bufSize])
      (by rw [runPool_put_bigBuf]; simp)).2.1⟩


/-! ## No early datagram is stranded -/

/-- While the connect task is inside `Connect`, an event adds to the queue
exactly the datagram of a `ReceiveTo` call that returned nil with the adapter
Connecting, and takes nothing off it. -/
theorem step_running_pending (h : UDPConnHandler) (ipAddrATON : String → Except String Nat)
    (s s1 : Sys) (e : Event) (hstep : step h ipAddrATON s e = some s1)
    (ht : s1.task = ConnectPC.running) :
    s1.w.conn.pending = s.w.conn.pending ++ acceptedEarly h s e := by
  cases e with
  | connectOk =>
    simp only [step] at hstep
    split at hstep <;> cases hstep
    cases ht
  | connectErr =>
    simp only [step] at hstep
    split at hstep <;> cases hstep
    cases ht
  | drain =>
    simp only [step] at hstep
    split at hstep
    · split at hstep <;> cases hstep <;> cases ht
    · cases hstep
  | receiveTo data addr =>
    simp only [step] at hstep
    cases hstep
    cases hst : s.w.conn.state with
    | udpConnected =>
      simp [acceptedEarly, hst, ReceiveTo_connected h s.w data addr hst]
    | udpClosed =>
      simp [acceptedEarly, hst, ReceiveTo_closed h s.w data addr hst]
    | udpConnecting =>
      by_cases hroom : s.w.conn.pending.length < pendingCap
      · simp [acceptedEarly, hst, ReceiveTo_connecting_room h s.w data addr hst hroom]
      · simp [acceptedEarly, hst, ReceiveTo_connecting_full h s.w data addr hst (by omega)]
  | writeFrom data addr =>
    simp only [step] at hstep
    cases hw : WriteFrom ipAddrATON s.w data addr with
    | none => simp [hw] at hstep
    | some r =>
      simp only [hw, Option.some.injEq] at hstep
      cases hstep
      obtain ⟨hc, _⟩ := WriteFrom_frame ipAddrATON s.w data addr r hw
      simp [acceptedEarly, hc]
  | close =>
    simp only [step] at hstep
    cases hstep
    simp [acceptedEarly, Close]
  | setDeadline now t =>
    simp only [step, SetDeadline] at hstep
    cases hd : s.w.conn.deadline <;> simp [hd] at hstep <;> cases hstep <;>
      simp [acceptedEarly]
  | deadlineExpired =>
    simp only [step] at hstep
    cases hd : s.w.conn.deadline <;> simp [hd] at hstep
    cases hstep
    simp [acceptedEarly, Close]

theorem run_running_pending (h : UDPConnHandler) (ipAddrATON : String → Except String Nat)
    (evs : List Event) :
    ∀ s s1 : Sys, run h ipAddrATON s evs = some s1 → s1.task = ConnectPC.running →
      s1.w.conn.pending = s.w.conn.pending ++ earlyAccepted h ipAddrATON s evs := by
  induction evs with
  | nil =>
    intro s s1 hrun _
    simp only [run, Option.some.injEq] at hrun
    subst hrun
    simp [earlyAccepted]
  | cons e es ih =>
    intro s s1 hrun ht
    simp only [run] at hrun
    cases hst : step h ipAddrATON s e with
    | none => simp [hst] at hrun
    | some s2 =>
      simp only [hst] at hrun
      have ht2 : s2.task = ConnectPC.running :=
        (run_before_transition h ipAddrATON es s2 s1 hrun ht).1
      rw [ih s2 s1 hrun ht, step_running_pending h ipAddrATON s s2 e hst ht2]
      simp [earlyAccepted, hst]

/-- Once the adapter has left Connecting no `ReceiveTo` call is accepted into
the queue any more. -/
theorem earlyAccepted_after_transition (h : UDPConnHandler)
    (ipAddrATON : String → Except String Nat) (evs : List Event) :
    ∀ s : Sys, s.w.conn.state ≠ udpConnState.udpConnecting →
      earlyAccepted h ipAddrATON s evs = [] := by
  induction evs with
  | nil => intro s _; rfl
  | cons e es ih =>
    intro s hs
    have hacc : acceptedEarly h s e = [] := by
      cases e <;> simp [acceptedEarly, hs]
    cases hst : step h ipAddrATON s e with
    | none => simp [earlyAccepted, hst, hacc]
    | some s2 =>
      have hs2 := (step_effect h ipAddrATON s s2 e hs hst).1
      simp [earlyAccepted, hst, hacc, ih s2 hs2]

/-- After the transition, with a handler that accepts the buffered datagrams,
the connect task finishes only with the queue empty. -/
theorem step_drain_accepting (h : UDPConnHandler) (ipAddrATON : String → Except String Nat)
    (s s1 : Sys) (e : Event) (hs : s.w.conn.state ≠ udpConnState.udpConnecting)
    (ht : s.task ≠ ConnectPC.running)
    (hfin : s.task = ConnectPC.finished → s.w.conn.pending = [])
    (hacc : ∀ log p, p ∈ s.w.conn.pending → h.ReceiveTo log p = none)
    (hstep : step h ipAddrATON s e = some s1) :
    s1.task ≠ ConnectPC.running ∧
    (s1.task = ConnectPC.finished → s1.w.conn.pending = []) ∧
    (∀ p, p ∈ s1.w.conn.pending → p ∈ s.w.conn.pending) := by
  obtain ⟨_, hkeep, heff⟩ := step_effect h ipAddrATON s s1 e hs hstep
  cases e with
  | connectOk => simp [step, ht] at hstep
  | connectErr => simp [step, ht] at hstep
  | drain =>
    simp only [step, drainOnce] at hstep
    split at hstep
    · cases hp : s.w.conn.pending with
      | nil =>
        simp [hp] at hstep
        cases hstep
        exact ⟨by simp, fun _ => hp, fun p hmem => by simp [hp] at hmem⟩
      | cons p q =>
        have hok : h.ReceiveTo s.w.received p = none := hacc _ p (by simp [hp])
        simp [hp, hok] at hstep
        cases hstep
        exact ⟨by simp, fun hf => by simp at hf, fun p1 hmem => List.mem_cons_of_mem _ hmem⟩
    · cases hstep
  | receiveTo data addr =>
    simp only [step] at hstep
    cases hstep
    rcases heff with ⟨hp, _⟩ | ⟨hp, _⟩ | ⟨_, _, hp, _⟩ | ⟨_, _, he, _⟩
    · exact ⟨ht, fun hf => hp.trans (hfin hf), fun p hmem => hp ▸ hmem⟩
    · exact ⟨ht, fun hf => hp.trans (hfin hf), fun p hmem => hp ▸ hmem⟩
    · exact ⟨ht, fun hf => hp.trans (hfin hf), fun p hmem => hp ▸ hmem⟩
    · cases he
  | writeFrom data addr =>
    simp only [step] at hstep
    cases hw : WriteFrom ipAddrATON s.w data addr with
    | none => simp [hw] at hstep
    | some r =>
      simp only [hw, Option.some.injEq] at hstep
      cases hstep
      obtain ⟨hc, _⟩ := WriteFrom_frame ipAddrATON s.w data addr r hw
      have hp : r.1.conn.pending = s.w.conn.pending := by rw [hc]
      exact ⟨ht, fun hf => hp.trans (hfin hf), fun p hmem => hp ▸ hmem⟩
  | close =>
    simp only [step] at hstep
    cases hstep
    exact ⟨ht, fun hf => hfin hf, fun p hmem => hmem⟩
  | setDeadline now t =>
    simp only [step, SetDeadline] at hstep
    cases hd : s.w.conn.deadline <;> simp [hd] at hstep <;> cases hstep <;>
      exact ⟨ht, fun hf => hfin hf, fun p hmem => hmem⟩
  | deadlineExpired =>
    simp only [step] at hstep
    cases hd : s.w.conn.deadline <;> simp [hd] at hstep
    cases hstep
    exact ⟨ht, fun hf => hfin hf, fun p hmem => hmem⟩

theorem run_drain_accepting (h : UDPConnHandler) (ipAddrATON : String → Except String Nat)
    (evs : List Event) :
    ∀ s s1 : Sys, s.w.conn.state ≠ udpConnState.udpConnecting →
      s.task ≠ ConnectPC.running →
      (s.task = ConnectPC.finished → s.w.conn.pending = []) →
      (∀ log p, p ∈ s.w.conn.pending → h.ReceiveTo log p = none) →
      run h ipAddrATON s evs = some s1 →
      s1.task ≠ ConnectPC.running ∧
      (s1.task = ConnectPC.finished → s1.w.conn.pending = []) := by
  induction evs with
  | nil =>
    intro s s1 _ ht hfin _ hrun
    simp only [run, Option.some.injEq] at hrun
    subst hrun
    exact ⟨ht, hfin⟩
  | cons e es ih =>
    intro s s1 hs ht hfin hacc hrun
    simp only [run] at hrun
    cases hst : step h ipAddrATON s e with
    | none => simp [hst] at hrun
    | some s2 =>
      simp only [hst] at hrun
      obtain ⟨ht2, hfin2, hsub⟩ := step_drain_accepting h ipAddrATON s s2 e hs ht hfin hacc hst
      exact ih s2 s1 (step_effect h ipAddrATON s s2 e hs hst).1 ht2 hfin2
        (fun log p hmem => hacc log p (hsub p hmem)) hrun


theorem run_keeps_finished (h : UDPConnHandler) (ipAddrATON : String → Except String Nat)
    (evs : List Event) :
    ∀ s s1 : Sys, s.w.conn.state ≠ udpConnState.udpConnecting →
      s.task = ConnectPC.finished →
      run h ipAddrATON s evs = some s1 → s1.task = ConnectPC.finished := by
  induction evs with
  | nil =>
    intro s s1 _ hfin hrun
    simp only [run, Option.some.injEq] at hrun
    subst hrun; exact hfin
  | cons e es ih =>
    intro s s1 hs hfin hrun
    simp only [run] at hrun
    cases hst : step h ipAddrATON s e with
    | none => simp [hst] at hrun
    | some s2 =>
      simp only [hst] at hrun
      obtain ⟨hs2, hkeep, _⟩ := step_effect h ipAddrATON s s2 e hs hst
      exact ih s2 s1 hs2 (hkeep hfin) hrun

/-- C20: in every interleaving of a fresh adapter whose `Connect` succeeds and
whose handler accepts the buffered datagrams: at the moment the connect task
sets Connected the queue holds exactly the datagrams for which `ReceiveTo`
returned nil while Connecting, in call order, and no call is accepted into the
queue afterwards; the drain can always run to its end; and when the connect task
has finished, the queue is empty, every one of those datagrams has been given
to the handler, and the queue stays empty under every later event. -/
theorem no_early_datagram_stranded (h : UDPConnHandler)
    (ipAddrATON : String → Except String Nat) (pcb localIP localPort : Nat)
    (localAddr : Option UDPAddr) (reg : Registry) (before after : List Event) (s1 s : Sys)
    (hbefore : run h ipAddrATON (initSys pcb localIP localPort localAddr reg) before = some s1)
    (hafter : run h ipAddrATON s1 (Event.connectOk :: after) = some s)
    (hacc : ∀ log p, p ∈ s1.w.conn.pending → h.ReceiveTo log p = none) :
    s1.w.conn.pending
      = earlyAccepted h ipAddrATON (initSys pcb localIP localPort localAddr reg) before ∧
    earlyAccepted h ipAddrATON s1 (Event.connectOk :: after) = [] ∧
    s.task ≠ ConnectPC.running ∧
    (s.task = ConnectPC.draining →
      ∃ (n : Nat) (s2 : Sys),
        run h ipAddrATON s (List.replicate n Event.drain) = some s2 ∧
        s2.task = ConnectPC.finished) ∧
    (s.task = ConnectPC.finished →
      s.w.conn.pending = [] ∧
      (earlyAccepted h ipAddrATON (initSys pcb localIP localPort localAddr reg) before).Sublist
        s.w.received ∧
      ∀ (later : List Event) (s3 : Sys), run h ipAddrATON s later = some s3 →
        s3.w.conn.pending = [] ∧ s3.task = ConnectPC.finished) := by
  have hrunning : s1.task = ConnectPC.running := by
    simp only [run, step] at hafter
    by_contra hne
    simp [hne] at hafter
  have hpend : s1.w.conn.pending
      = earlyAccepted h ipAddrATON (initSys pcb localIP localPort localAddr reg) before := by
    have := run_running_pending h ipAddrATON before _ s1 hbefore hrunning
    simpa [initSys, newUDPConn] using this
  have hrec : s1.w.received = [] :=
    ((run_before_transition h ipAddrATON before _ s1 hbefore hrunning).2
      (by simp [initSys, newUDPConn]) rfl).2
  have hstep : step h ipAddrATON s1 Event.connectOk
      = some { w := setConnected s1.w, task := ConnectPC.draining } := by
    simp [step, hrunning]
  have hearly : earlyAccepted h ipAddrATON s1 (Event.connectOk :: after) = [] := by
    simp only [earlyAccepted, acceptedEarly, hstep, List.nil_append]
    exact earlyAccepted_after_transition h ipAddrATON after _ (by simp [setConnected])
  simp only [run, hstep] at hafter
  obtain ⟨htask, hempty⟩ := run_drain_accepting h ipAddrATON after
    (Sys.mk (setConnected s1.w) ConnectPC.draining) s (by simp [setConnected]) (by simp)
    (by simp) (fun log p hmem => hacc log p hmem) hafter
  obtain ⟨hstate, k, fwd, rest, hdrop, hrest, _, htake, _, _⟩ :=
    run_after_transition h ipAddrATON after
      (Sys.mk (setConnected s1.w) ConnectPC.draining) s (by simp [setConnected]) hafter
  refine ⟨hpend, hearly, htask, ?_, ?_⟩
  · intro hdr
    obtain ⟨n, _, hrun⟩ := drainFrom_as_run h ipAddrATON s.w.conn.pending s.w rfl
    refine ⟨n, Sys.mk (drainFrom h s.w s.w.conn.pending) ConnectPC.finished, ?_, rfl⟩
    have hs : s = { w := s.w, task := ConnectPC.draining } := by
      cases s; simp at hdr; simp [hdr]
    rw [hs]
    exact hrun
  · intro hfin
    have hnil := hempty hfin
    refine ⟨hnil, ?_, ?_⟩
    · rw [← hpend]
      have hk : s1.w.conn.pending.length ≤ k := by
        have h0 : (s1.w.conn.pending.drop k) = [] := by
          rw [← hnil]; exact hdrop.symm
        exact List.drop_eq_nil_iff.mp h0
      have htk : (setConnected s1.w).conn.pending.take k = s1.w.conn.pending :=
        List.take_of_length_le hk
      have hrec2 : s.w.received = rest := by
        rw [hrest]; simp [setConnected, hrec]
      rw [hrec2, ← htk]
      exact htake
    · intro later s3 hrun
      obtain ⟨hp, _⟩ := run_after_drain h ipAddrATON later s s3 hstate hfin hrun
      have hfin3 : s3.task = ConnectPC.finished :=
        run_keeps_finished h ipAddrATON later s s3 hstate hfin hrun
      exact ⟨hp.trans hnil, hfin3⟩


/-- C20 on a sample interleaving: one datagram is buffered, the connect task
connects, a second datagram is forwarded, and two turns of the drain deliver
the buffered datagram and finish with the queue empty. -/
theorem no_early_datagram_stranded_witness :
    run acceptAll atonOk (initSys 1 2 5353 (some sampleLocal) [])
        [Event.receiveTo [1] (some sampleRemote)] = some bufferedSys ∧
    run acceptAll atonOk bufferedSys
        [Event.connectOk, Event.receiveTo [2] (some sampleRemote), Event.drain, Event.drain]
      = some drainedSys ∧
    (∀ log p, p ∈ bufferedSys.w.conn.pending → acceptAll.ReceiveTo log p = none) ∧
    drainedSys.task = ConnectPC.finished ∧
    drainedSys.w.conn.pending = [] ∧
    (earlyAccepted acceptAll atonOk (initSys 1 2 5353 (some sampleLocal) [])
        [Event.receiveTo [1] (some sampleRemote)]).Sublist drainedSys.w.received :=
  ⟨by decide, by decide, fun _ _ _ => rfl, rfl,
    ((no_early_datagram_stranded acceptAll atonOk 1 2 5353 (some sampleLocal) []
      [Event.receiveTo [1] (some sampleRemote)]
      [Event.receiveTo [2] (some sampleRemote), Event.drain, Event.drain]
      bufferedSys drainedSys (by decide) (by decide) (fun _ _ _ => rfl)).2.2.2.2 rfl).1,
    ((no_early_datagram_stranded acceptAll atonOk 1 2 5353 (some sampleLocal) []
      [Event.receiveTo [1] (some sampleRemote)]
      [Event.receiveTo [2] (some sampleRemote), Event.drain, Event.drain]
      bufferedSys drainedSys (by decide) (by decide) (fun _ _ _ => rfl)).2.2.2.2 rfl).2.1⟩


/-! ## A closed adapter under interleaving -/

/-- No event makes a `udp_sendto` while the adapter is Closed. -/
theorem step_closed_sent (h : UDPConnHandler) (ipAddrATON : String → Except String Nat)
    (s s1 : Sys) (e : Event) (hs : s.w.conn.state = udpConnState.udpClosed)
    (hstep : step h ipAddrATON s e = some s1) :
    s1.w.sent = s.w.sent := by
  cases e with
  | connectOk =>
    simp only [step] at hstep
    split at hstep <;> cases hstep
    rfl
  | connectErr =>
    simp only [step] at hstep
    split at hstep <;> cases hstep
    rfl
  | drain =>
    simp only [step, drainOnce] at hstep
    split at hstep
    · cases hp : s.w.conn.pending with
      | nil => simp [hp] at hstep; cases hstep; rfl
      | cons p q =>
        cases hr : h.ReceiveTo s.w.received p <;> simp [hp, hr] at hstep <;> cases hstep <;> rfl
    · cases hstep
  | receiveTo data addr =>
    simp only [step, ReceiveTo_closed h s.w data addr hs] at hstep
    cases hstep; rfl
  | writeFrom data addr =>
    simp only [step, WriteFrom_closed ipAddrATON s.w data addr hs] at hstep
    cases hstep; rfl
  | close =>
    simp only [step] at hstep
    cases hstep; rfl
  | setDeadline now t =>
    simp only [step, SetDeadline] at hstep
    cases hd : s.w.conn.deadline <;> simp [hd] at hstep <;> cases hstep <;> rfl
  | deadlineExpired =>
    simp only [step] at hstep
    cases hd : s.w.conn.deadline <;> simp [hd] at hstep
    cases hstep; rfl

/-- C6 as stated fails: with the adapter Closed, an operation still delivers
data to the handler. A datagram is buffered, the connect task sets Connected,
the adapter is closed, and the next turn of the drain loop, which never reads
the state, hands the buffered datagram to the handler while the state is
Closed. -/
theorem drain_delivers_while_closed :
    (run acceptAll atonOk (initSys 1 2 5353 (some sampleLocal) [])
        [Event.receiveTo [1] (some sampleRemote), Event.connectOk, Event.close]).map
          (fun s => (s.w.conn.state, s.w.conn.pending, s.w.received))
      = some (udpConnState.udpClosed, [samplePkt 1], []) ∧
    (run acceptAll atonOk (initSys 1 2 5353 (some sampleLocal) [])
        [Event.receiveTo [1] (some sampleRemote), Event.connectOk, Event.close,
          Event.drain]).map
          (fun s => (s.w.conn.state, s.w.conn.pending, s.w.received))
      = some (udpConnState.udpClosed, [], [samplePkt 1]) := by
  decide

/-- C6 (amended): while the adapter is Closed, a call of `ReceiveTo` changes
nothing (the queue and the list of datagrams given to the handler stay as they
were) and returns an error, a call of `WriteFrom` changes nothing (no
`udp_sendto` is made), and `Close` and `SetDeadline` leave the queue, the
handler's log and the sends as they were. Over all events of the adapter taken
from a Closed state: none makes a `udp_sendto`, none adds to the queue, and the
only one that takes a datagram off the queue or invokes the handler is a turn
of the connect task's drain loop. -/
theorem closed_adapter_is_inert (h : UDPConnHandler)
    (ipAddrATON : String → Except String Nat) (w : World) (data : List Nat)
    (addr : Option UDPAddr) (now t : Int)
    (hs : w.conn.state = udpConnState.udpClosed) :
    (ReceiveTo h w data addr).1 = w ∧
    (ReceiveTo h w data addr).1.conn.pending = w.conn.pending ∧
    (ReceiveTo h w data addr).1.received = w.received ∧
    (ReceiveTo h w data addr).2 = some "connection closed" ∧
    (∃ err, WriteFrom ipAddrATON w data addr = some (w, 0, err)) ∧
    (∀ r, WriteFrom ipAddrATON w data addr = some r → r.1.sent = w.sent) ∧
    ((Close w).1.conn.pending = w.conn.pending ∧ (Close w).1.received = w.received ∧
      (Close w).1.sent = w.sent) ∧
    ((SetDeadline w now t).1.conn.pending = w.conn.pending ∧
      (SetDeadline w now t).1.received = w.received ∧
      (SetDeadline w now t).1.sent = w.sent) ∧
    (∀ (task : ConnectPC) (e : Event) (s1 : Sys),
      step h ipAddrATON { w := w, task := task } e = some s1 →
      s1.w.sent = w.sent ∧
      (s1.w.conn.pending = w.conn.pending ∨ ∃ p, w.conn.pending = p :: s1.w.conn.pending) ∧
      (e ≠ Event.drain →
        s1.w.conn.pending = w.conn.pending ∧ s1.w.received = w.received) ∧
      (s1.w.received ≠ w.received → e = Event.drain ∧ task = ConnectPC.draining)) := by
  refine ⟨?_, ?_, ?_, ?_, ?_, ?_, ⟨rfl, rfl, rfl⟩, ?_, ?_⟩
  · rw [ReceiveTo_closed h w data addr hs]
  · rw [ReceiveTo_closed h w data addr hs]
  · rw [ReceiveTo_closed h w data addr hs]
  · rw [ReceiveTo_closed h w data addr hs]
  · rw [WriteFrom_closed ipAddrATON w data addr hs]; exact ⟨_, rfl⟩
  · intro r hr
    rw [WriteFrom_closed ipAddrATON w data addr hs] at hr
    cases hr; rfl
  · cases hd : w.conn.deadline <;> simp [SetDeadline, hd]
  · intro task e s1 hstep
    have hne : ({ w := w, task := task } : Sys).w.conn.state ≠ udpConnState.udpConnecting := by
      show w.conn.state ≠ _
      rw [hs]; simp
    have hdel : s1.w.received ≠ w.received → e = Event.drain ∧ task = ConnectPC.draining := by
      intro hrec
      rcases step_delivers_only h ipAddrATON _ s1 e hstep hrec with hd | ⟨d, a, _, hc⟩
      · exact hd
      · have hc2 : w.conn.state = udpConnState.udpConnected := hc
        rw [hs] at hc2; cases hc2
    obtain ⟨_, _, heff⟩ := step_effect h ipAddrATON _ s1 e hne hstep
    have hpend : (s1.w.conn.pending = w.conn.pending) ∨
        (e = Event.drain ∧ ∃ p, w.conn.pending = p :: s1.w.conn.pending) := by
      rcases heff with ⟨hp, _⟩ | ⟨hp, _⟩ | ⟨_, _, hp, _⟩ | ⟨p, q, he, _, hpq, hp, _⟩
      · exact Or.inl hp
      · exact Or.inl hp
      · exact Or.inl hp
      · exact Or.inr ⟨he, p, by rw [hp]; exact hpq⟩
    refine ⟨step_closed_sent h ipAddrATON _ s1 e hs hstep, ?_, ?_, hdel⟩
    · rcases hpend with hp | ⟨_, hp⟩
      · exact Or.inl hp
      · exact Or.inr hp
    · intro hnd
      refine ⟨?_, ?_⟩
      · rcases hpend with hp | ⟨he, _⟩
        · exact hp
        · exact absurd he hnd
      · by_contra hrec
        exact hnd (hdel hrec).1

/-- The amended C6 at a closed sample adapter. -/
theorem closed_adapter_is_inert_witness :
    (Close sampleWorld).1.conn.state = udpConnState.udpClosed ∧
    (ReceiveTo acceptAll (Close sampleWorld).1 [1] (some sampleRemote)).1 = (Close sampleWorld).1 ∧
    (∀ (task : ConnectPC) (e : Event) (s1 : Sys),
      step acceptAll atonOk { w := (Close sampleWorld).1, task := task } e = some s1 →
      s1.w.sent = (Close sampleWorld).1.sent ∧
      (s1.w.conn.pending = (Close sampleWorld).1.conn.pending ∨
        ∃ p, (Close sampleWorld).1.conn.pending = p :: s1.w.conn.pending) ∧
      (e ≠ Event.drain →
        s1.w.conn.pending = (Close sampleWorld).1.conn.pending ∧
        s1.w.received = (Close sampleWorld).1.received) ∧
      (s1.w.received ≠ (Close sampleWorld).1.received →
        e = Event.drain ∧ task = ConnectPC.draining)) :=
  ⟨rfl, (closed_adapter_is_inert acceptAll atonOk (Close sampleWorld).1 [1] (some sampleRemote)
    0 0 rfl).1,
    (closed_adapter_is_inert acceptAll atonOk (Close sampleWorld).1 [1] (some sampleRemote)
    0 0 rfl).2.2.2.2.2.2.2.2⟩

end GoLwip
